import Mathlib

/-!
# Verification of the 'Caps i Caps' rules engine (`src/game_logic.py`)

A shallow embedding of the deterministic rules engine: board model, move
parsing/validation, rotation cascade, entry/jump physics, the one-shot
entropy event, and scoring/termination.  Python dictionaries are embedded
as insertion-ordered association lists (Python 3.7+ dicts iterate in
insertion order), Python ints as `Nat`/`Int`, the `try/except` move
boundary as `Except String`.  The two sources of randomness inside the
entropy routine (`random.shuffle`, `random.randint`) are supplied by the
caller as an `EntropyRand` argument, faithful to the source drawing them
from ambient randomness.
-/

namespace CapsBench

/-- Association-list lookup with decidable key equality: the first binding
wins, which matches Python dict semantics (keys are unique in states built
by the engine). `none` corresponds to a Python `KeyError` on subscripting. -/
def lookupA {α β : Type} [DecidableEq α] : List (α × β) → α → Option β
  | [], _ => none
  | (k, v) :: t, k' => if k = k' then some v else lookupA t k'

/-- Association-list update of the first binding of a key, keeping its
position: Python `d[k] = v` on a present key. A missing key is left
untouched (the engine only ever assigns to keys it has already read). -/
def updateA {α β : Type} [DecidableEq α] : List (α × β) → α → β → List (α × β)
  | [], _, _ => []
  | (k, v) :: t, k', v' => if k = k' then (k, v') :: t else (k, v) :: updateA t k' v'

/-- Python `d[k] = v` on a dict that may not contain `k` yet: update the
binding if present, else append (insertion order). Used by the entropy
routine's `mouse_moves_map`. -/
def dictInsert {α β : Type} [DecidableEq α] (l : List (α × β)) (k : α) (v : β) :
    List (α × β) :=
  if (lookupA l k).isSome then updateA l k v else l ++ [(k, v)]

/-- Gear topology, `"R"`/`"L"` in the board strings. -/
inductive Topo
  | R
  | L
deriving DecidableEq, Repr

/-- The parsed content of a gear string `G{t}P{x}{y}{topo}{rot}B{code}`
(`_parse_gear_str`): gear type digit, the position recorded in the string,
topology, rotation digit, and the four-digit occupancy code (digit `2` =
base absent, `1` = occupied by a mouse, `0` = empty base). -/
structure GearData where
  gtype : Nat
  gpos : Nat × Nat
  topo : Topo
  rot : Nat
  bases : List Nat
deriving DecidableEq, Repr

instance : Inhabited GearData := ⟨⟨1, (0, 0), Topo.R, 0, [2, 2, 2, 2]⟩⟩

/-- Board cell content: `"obstacle"`, an empty-cell token `"Pxy{topo}"`, or
a gear string. -/
inductive Cell
  | obstacle
  | empty (topo : Topo)
  | gear (g : GearData)
deriving DecidableEq, Repr

/-- Mouse status strings `"WAITING"`, `"IN_PLAY"`, `"ESCAPED"`. -/
inductive MStatus
  | waiting
  | inPlay
  | escaped
deriving DecidableEq, Repr

/-- Mouse position: a cell id string `"Pxy"` (row `0` is the waiting bay)
or the literal `"OUT"`. -/
inductive MPos
  | cell (x y : Nat)
  | out
deriving DecidableEq, Repr

/-- One mouse record `{pos, on_base, status}`. -/
structure Mouse where
  pos : MPos
  onBase : Option Nat
  status : MStatus
deriving DecidableEq, Repr

/-- `GEAR_BASES`: which base indices physically exist on each gear type.
The engine only ever consults types `1`–`4` (a placement with any other
type digit is rejected by the inventory check first). -/
def gearBases : Nat → List Nat
  | 1 => [0]
  | 2 => [0, 2]
  | 3 => [1, 2, 3]
  | 4 => [0, 1, 2, 3]
  | _ => []

/-- `DIRECTION_DELTAS`: base orientation index to `(dx, dy)`;
x grows right, y grows up. Only indices `0`–`3` are ever used. -/
def directionDeltas : Nat → Int × Int
  | 0 => (0, 1)
  | 1 => (-1, 0)
  | 2 => (0, -1)
  | 3 => (1, 0)
  | _ => (0, 0)

/-- `SCORE_POINTS`: jump score by absolute jump direction. -/
def scorePoints : Nat → Int
  | 0 => 10
  | 1 => 5
  | 2 => -10
  | 3 => 5
  | _ => 0

/-- One entry of `GAME_LEVELS`. The inventory is keyed by gear-type digit
(`"G1"` ↦ `1`, …); the map string is kept as its character list. -/
structure LevelConfig where
  width : Nat
  height : Nat
  gameMap : List Char
  inventory : List (Nat × Nat)
  maxMoves : Nat
  idealMoves : Nat
deriving DecidableEq, Repr

def level1 : LevelConfig :=
  ⟨3, 3, "111101111".toList, [(1, 2), (2, 3), (3, 1), (4, 2)], 22, 12⟩

def level2 : LevelConfig :=
  ⟨4, 4, "1111110110111111".toList, [(1, 3), (2, 4), (3, 5), (4, 2)], 36, 22⟩

def level3 : LevelConfig :=
  ⟨5, 5, "1111111110011111101111111".toList, [(1, 6), (2, 5), (3, 6), (4, 5)], 48, 28⟩

def level4 : LevelConfig :=
  ⟨6, 6, "111111111101011111110111111101110111".toList,
    [(1, 8), (2, 5), (3, 11), (4, 7)], 58, 44⟩

def level5 : LevelConfig :=
  ⟨7, 7, "1111111110111101111111101111111101111101101111111".toList,
    [(1, 13), (2, 7), (3, 15), (4, 8)], 88, 60⟩

def level6 : LevelConfig :=
  ⟨8, 8, "1111111111111101111010110111111011110111110111111011111111111111".toList,
    [(1, 18), (2, 13), (3, 10), (4, 15)], 111, 78⟩

/-- `GAME_LEVELS` as a partial map from level id. -/
def gameLevels (lid : String) : Option LevelConfig :=
  if lid = "1" then some level1
  else if lid = "2" then some level2
  else if lid = "3" then some level3
  else if lid = "4" then some level4
  else if lid = "5" then some level5
  else if lid = "6" then some level6
  else none

/-! ## Command parsing

The Python code uses `re.match`, which anchors at the start of the string
only: trailing characters after the pattern are accepted.  Each pattern's
`\d+` group is followed by a non-digit, so greedy matching is maximal-munch
without backtracking. -/

/-- The numeric value of a digit character. -/
def digitVal (c : Char) : Nat := c.toNat - 48

/-- Split a character list at the longest prefix of decimal digits
(the `\d+`/`\d*` munch of the regexes). -/
def takeDigits : List Char → List Nat × List Char
  | [] => ([], [])
  | c :: t =>
    if c.isDigit then
      let p := takeDigits t
      (digitVal c :: p.1, p.2)
    else ([], c :: t)

/-- The two rotation tokens `"+90"`/`"-90"`. -/
inductive RotStr
  | plus90
  | minus90
deriving DecidableEq, Repr

/-- Match `([+-]90)` at the head of a character list (rest unconstrained). -/
def matchRotToken : List Char → Option RotStr
  | '+' :: '9' :: '0' :: _ => some RotStr.plus90
  | '-' :: '9' :: '0' :: _ => some RotStr.minus90
  | _ => none

/-- `re.match(r"G@(P\d+)([+-]90)", main_move)`: the Rotation-Phase main
move.  Returns the cell-id digit list and the rotation token. -/
def matchRotMain (cs : List Char) : Option (List Nat × RotStr) :=
  match cs with
  | 'G' :: '@' :: 'P' :: rest =>
    match takeDigits rest with
    | ([], _) => none
    | (ds, r) =>
      match matchRotToken r with
      | some rot => some (ds, rot)
      | none => none
  | _ => none

/-- `re.match(r"G@(P\d+):b=(\d)", pre_move)`: the Rotation-Phase pre-move. -/
def matchPreMove (cs : List Char) : Option (List Nat × Nat) :=
  match cs with
  | 'G' :: '@' :: 'P' :: rest =>
    match takeDigits rest with
    | ([], _) => none
    | (ds, ':' :: 'b' :: '=' :: c :: _) =>
      if c.isDigit then some (ds, digitVal c) else none
    | _ => none
  | _ => none

/-- `re.match(r"(G\d)@(P\d+)\(b=(\d)\)([+-]90)", main_move)`: the
Placement-Phase move.  Returns gear-type digit, cell-id digits, initial
base digit and rotation token. -/
def matchPlacement (cs : List Char) : Option (Nat × List Nat × Nat × RotStr) :=
  match cs with
  | 'G' :: g :: '@' :: 'P' :: rest =>
    if g.isDigit then
      match takeDigits rest with
      | ([], _) => none
      | (ds, '(' :: 'b' :: '=' :: b :: ')' :: r) =>
        if b.isDigit then
          match matchRotToken r with
          | some rot => some (digitVal g, ds, b.toNat - 48, rot)
          | none => none
        else none
      | _ => none
    else none
  | _ => none

/-- Python `move_str.split(";")` on character lists: never returns `[]`,
keeps empty pieces. -/
def splitSemis : List Char → List (List Char)
  | [] => [[]]
  | c :: t =>
    if c = ';' then [] :: splitSemis t
    else
      match splitSemis t with
      | [] => [[c]]
      | h :: r => (c :: h) :: r

/-- Python `str.strip()`: drop whitespace from both ends. -/
def stripWs (l : List Char) : List Char :=
  ((l.dropWhile Char.isWhitespace).reverse.dropWhile Char.isWhitespace).reverse

/-! ## Game state -/

/-- The mutable session state of `CapsiCapsGame`.  The board dict is keyed
by the cell coordinates `(x, y)` encoded in the `"Pxy"` id (all keys have
single-digit coordinates, so the string key and the coordinate pair are in
bijection); presentation-only fields (`agent_id`, `last_reasoning`,
`available_levels`) are omitted.  `completionPercent` models the Python
float `(rescued / total) * 100` by the exact rational (no claim depends on
this field; the engine never reads it back). -/
structure GameState where
  width : Nat
  height : Nat
  board : List ((Nat × Nat) × Cell)
  inventory : List (Nat × Nat)
  mice : List (Nat × Mouse)
  movesCount : Nat
  maxMoves : Nat
  idealMoves : Nat
  scoreAccumulated : Int
  history : List String
  levelId : String
  isGameOver : Bool
  gameResult : String
  completionPercent : ℚ
  finalBenchmarkScore : Int
  entropyTriggered : Bool
deriving DecidableEq, Repr

/-- `sum(self.inventory.values())`. -/
def invSum (s : GameState) : Nat := (s.inventory.map Prod.snd).sum

/-- The starting inventory total of the session's level,
`sum(GAME_LEVELS[self.level_id]["inventory"].values())` (the level id of a
state built by `reset` is always a valid key). -/
def levelInitialInvSum (lid : String) : Nat :=
  ((((gameLevels lid).getD level1).inventory).map Prod.snd).sum

/-- `reset(level_id)`: build the initial state of a level (an unknown id
falls back to level `"1"`).  Cells are laid out with `y` outer and `x`
inner, matching the linear map string; topology is `R` when `(x+y)` is
even, else `L`; one waiting mouse per column in the virtual row `0`. -/
def reset (levelId : String) : GameState :=
  let lid := if (gameLevels levelId).isSome then levelId else "1"
  let config := (gameLevels lid).getD level1
  let board := (List.range config.height).flatMap (fun yi =>
    (List.range config.width).map (fun xi =>
      let x := xi + 1
      let y := yi + 1
      let topo := if (x + y) % 2 = 0 then Topo.R else Topo.L
      let ch := config.gameMap.getD (yi * config.width + xi) '1'
      ((x, y), if ch = '0' then Cell.obstacle else Cell.empty topo)))
  let mice := (List.range config.width).map (fun i =>
    (i + 1, (⟨MPos.cell (i + 1) 0, none, MStatus.waiting⟩ : Mouse)))
  { width := config.width
    height := config.height
    board := board
    inventory := config.inventory
    mice := mice
    movesCount := 0
    maxMoves := config.maxMoves
    idealMoves := config.idealMoves
    scoreAccumulated := 0
    history := []
    levelId := lid
    isGameOver := false
    gameResult := "IN_PROGRESS"
    completionPercent := 0
    finalBenchmarkScore := 0
    entropyTriggered := false }

/-! ## Math helpers -/

/-- `_calc_rotation`: new rotation digit, `(current_b + delta) % 4` with
Python's nonnegative `%`; the source adds `1` for `"+90"` and `-1` for
`"-90"`. -/
def calcRotation (b : Nat) (r : RotStr) : Nat :=
  (((b : Int) + (match r with | RotStr.plus90 => 1 | RotStr.minus90 => -1)).emod 4).toNat

/-- `_calc_vector_sum`: absolute direction of a base, `(rot + base) % 4`. -/
def calcVectorSum (gearB baseB : Nat) : Nat := (gearB + baseB) % 4

/-- `_get_cell_from_coords`: boundary-validated coordinates; `x` must be a
real column, `y` may also name the waiting bay (`0`) or the row above the
top edge (`height + 1`). -/
def getCellFromCoords (s : GameState) (x y : Int) : Option (Nat × Nat) :=
  if 1 ≤ x ∧ x ≤ (s.width : Int) then
    if 0 ≤ y ∧ y ≤ (s.height : Int) + 1 then some (x.toNat, y.toNat)
    else none
  else none

/-- The board-dict lookup `self.board[cell_id]` for a cell id taken from a
command string with digit list `ds`: the dict's keys are exactly the
canonical two-digit ids of on-grid cells, so any other digit list misses
(Python `KeyError`, `none` here). -/
def boardLookupDigits (s : GameState) (ds : List Nat) : Option Cell :=
  match ds with
  | [x, y] => lookupA s.board (x, y)
  | _ => none

/-- The `str(KeyError)` text for a missed cell id: the repr-quoted key. -/
def keyErrorMsg (ds : List Nat) : String :=
  "'P" ++ String.mk (ds.map Nat.digitChar) ++ "'"

/-- `_check_adjacency`: does the cell have an orthogonal neighbor holding a
gear? Iterates the four direction deltas. -/
def checkAdjacency (s : GameState) (x y : Nat) : Bool :=
  [0, 1, 2, 3].any (fun d =>
    let dd := directionDeltas d
    match getCellFromCoords s ((x : Int) + dd.1) ((y : Int) + dd.2) with
    | some k =>
      match lookupA s.board k with
      | some (Cell.gear _) => true
      | _ => false
    | none => false)

/-! ## Physics -/

/-- The base-scanning loop shared by `_check_entries` and `_check_jumps`:
the first base index in the list (the gear type's valid bases, listed in
ascending order) whose absolute direction `(rot + b) % 4` equals `req` and
whose occupancy digit is `0`.  A direction match with an occupied base
does not stop the scan. -/
def findAdmit (rot req : Nat) (code : List Nat) : List Nat → Option Nat
  | [] => none
  | b :: rest =>
    if calcVectorSum rot b = req ∧ code.getD b 2 = 0 then some b
    else findAdmit rot req code rest

/-- The sign inversion applied to the commanded rotation for a gear of
opposite topology: `"-90" if rot_str == "+90" else "+90"`. -/
def invRot : RotStr → RotStr
  | RotStr.plus90 => RotStr.minus90
  | RotStr.minus90 => RotStr.plus90

/-- The per-gear body of `_apply_rotation`'s cascade loop: a gear whose
topology equals the driver's turns by the commanded rotation, an opposite
topology by the inverted rotation; non-gear cells are untouched.  (The
source skips the string rewrite when the digit is unchanged, which cannot
happen for rotation digits `0`–`3`; the result is the same either way.) -/
def rotCell (driverTopo : Topo) (r : RotStr) : Cell → Cell
  | Cell.gear g =>
    if calcRotation g.rot (if g.topo ≠ driverTopo then invRot r else r) ≠ g.rot then
      Cell.gear { g with rot := calcRotation g.rot (if g.topo ≠ driverTopo then invRot r else r) }
    else Cell.gear g
  | c => c

/-- `_apply_rotation`: the unified rotation cascade.  The callers guarantee
the driver cell holds a gear (the source would raise on `None` otherwise). -/
def applyRotation (s : GameState) (driver : Nat × Nat) (r : RotStr) : GameState :=
  match lookupA s.board driver with
  | some (Cell.gear dg) =>
    { s with board := s.board.map (fun kv => (kv.1, rotCell dg.topo r kv.2)) }
  | _ => s

/-- Monadic fold used to run a physics pass over a list of ids, stopping
at the first raised exception (which `process_move` catches). -/
def foldExcept {α : Type} (f : GameState → α → Except String GameState) :
    GameState → List α → Except String GameState
  | s, [] => Except.ok s
  | s, a :: t =>
    match f s a with
    | Except.ok s' => foldExcept f s' t
    | Except.error e => Except.error e

/-- The body of `_check_entries` for one mouse: a `WAITING` mouse enters
the gear (if any) at row 1 of its column on the first valid base pointing
South (`2`) that is free; it becomes `IN_PLAY` and the base digit is set
to `1`.  A waiting mouse with position `"OUT"` would make the source raise
(`_get_coords` returns `None`); that state is unreachable. -/
def entryOne (s : GameState) (mid : Nat) : Except String GameState :=
  match lookupA s.mice mid with
  | none => Except.ok s
  | some m =>
    if m.status = MStatus.waiting then
      match m.pos with
      | MPos.out => Except.error "TypeError"
      | MPos.cell x _ =>
        match lookupA s.board (x, 1) with
        | some (Cell.gear g) =>
          match findAdmit g.rot 2 g.bases (gearBases g.gtype) with
          | some b =>
            Except.ok { s with
              mice := updateA s.mice mid ⟨MPos.cell x 1, some b, MStatus.inPlay⟩
              board := updateA s.board (x, 1) (Cell.gear { g with bases := g.bases.set b 1 }) }
          | none => Except.ok s
        | _ => Except.ok s
    else Except.ok s

/-- `_check_entries`: run the entry rule over all mice in insertion order. -/
def checkEntries (s : GameState) : Except String GameState :=
  foldExcept entryOne s (s.mice.map Prod.fst)

/-- The body of `_check_jumps` for one mouse: compute the absolute output
direction, step one cell; beyond the top edge while pointing North the
mouse escapes (+10); onto a gear it takes the first valid base pointing
back at it that is free, freeing its origin base and scoring by direction;
otherwise it stays.  A mouse on an on-board non-gear cell, or with no
`on_base`, or with an out-of-range base index at jump execution, makes the
source raise; those states are unreachable from `reset`. -/
def jumpOne (s : GameState) (mid : Nat) : Except String GameState :=
  match lookupA s.mice mid with
  | none => Except.ok s
  | some m =>
    match m.pos with
    | MPos.out => Except.ok s
    | MPos.cell x y =>
      match lookupA s.board (x, y) with
      | none => Except.ok s
      | some Cell.obstacle => Except.error "TypeError"
      | some (Cell.empty _) => Except.error "TypeError"
      | some (Cell.gear g) =>
        match m.onBase with
        | none => Except.error "TypeError"
        | some b =>
          let pointing := calcVectorSum g.rot b
          let dd := directionDeltas pointing
          match getCellFromCoords s ((x : Int) + dd.1) ((y : Int) + dd.2) with
          | none => Except.ok s
          | some t =>
            if s.height < t.2 then
              if pointing = 0 then
                if b < g.bases.length then
                  Except.ok { s with
                    board := updateA s.board (x, y) (Cell.gear { g with bases := g.bases.set b 0 })
                    mice := updateA s.mice mid ⟨MPos.out, none, MStatus.escaped⟩
                    scoreAccumulated := s.scoreAccumulated + 10 }
                else Except.error "IndexError"
              else Except.ok s
            else
              match lookupA s.board t with
              | some (Cell.gear tg) =>
                match findAdmit tg.rot ((pointing + 2) % 4) tg.bases (gearBases tg.gtype) with
                | some tb =>
                  if b < g.bases.length then
                    let board1 := updateA s.board (x, y) (Cell.gear { g with bases := g.bases.set b 0 })
                    let tg2 := match lookupA board1 t with
                      | some (Cell.gear h) => h
                      | _ => tg
                    Except.ok { s with
                      board := updateA board1 t (Cell.gear { tg2 with bases := tg2.bases.set tb 1 })
                      mice := updateA s.mice mid ⟨MPos.cell t.1 t.2, some tb, m.status⟩
                      scoreAccumulated := s.scoreAccumulated + scorePoints pointing }
                  else Except.error "IndexError"
                | none => Except.ok s
              | _ => Except.ok s

/-- `_check_jumps`: snapshot the `IN_PLAY` mouse ids, then give each at
most one jump, in insertion order. -/
def checkJumps (s : GameState) : Except String GameState :=
  foldExcept jumpOne s
    ((s.mice.filter (fun p => p.2.status = MStatus.inPlay)).map Prod.fst)

/-! ## Entropy -/

/-- The randomness consumed by `_trigger_entropy`: `random.shuffle` draws a
permutation of the row's gear list (position `i` of the shuffled list is
modeled as entry `perm i % n` of the original list), and `random.randint(0, 3)`
for the `i`-th relocated gear is modeled as `rots i % 4`. -/
structure EntropyRand where
  perm : Nat → Nat
  rots : Nat → Nat

/-- A cell id string `"Pxy"` from coordinates. -/
def cellStr (k : Nat × Nat) : String :=
  "P" ++ toString k.1 ++ toString k.2

/-- The critical row of `_trigger_entropy`: the second-to-last board row,
clamped to row 1. -/
def entropyRowY (s : GameState) : Nat :=
  if s.height - 1 < 1 then 1 else s.height - 1

/-- The gears currently in the critical row, left to right, with their
cells. -/
def entropyRow (s : GameState) : List ((Nat × Nat) × GearData) :=
  (List.range' 1 s.width).filterMap (fun x =>
    match lookupA s.board (x, entropyRowY s) with
    | some (Cell.gear g) => some ((x, entropyRowY s), g)
    | _ => none)

/-- The non-trivial branch of `_trigger_entropy`: reassign the row's gear
identities to the row's cells in shuffled order with fresh random
rotations and recomputed topology, then relocate the `IN_PLAY` mice that
sat on a moved origin cell. -/
def entropyApply (s : GameState) (er : EntropyRand)
    (rowCells : List ((Nat × Nat) × GearData)) : GameState × String :=
  let coordsList := rowCells.map Prod.fst
  let gearList := rowCells.map Prod.snd
  let n := gearList.length
  let acc := (List.range n).foldl
    (fun (acc : List ((Nat × Nat) × Cell) × List ((Nat × Nat) × (Nat × Nat)) × List String) i =>
      let target := coordsList.getD i (0, 0)
      let src := gearList.getD (er.perm i % n) default
      let origin := src.gpos
      let newB := er.rots i % 4
      let topo := if (target.1 + target.2) % 2 = 0 then Topo.R else Topo.L
      (updateA acc.1 target (Cell.gear ⟨src.gtype, target, topo, newB, src.bases⟩),
       dictInsert acc.2.1 origin target,
       acc.2.2 ++ [cellStr origin ++ "->" ++ cellStr target ++ "(b=" ++ toString newB ++ ")"]))
    (s.board, [], [])
  let mice := s.mice.map (fun p =>
    if p.2.status = MStatus.inPlay then
      match p.2.pos with
      | MPos.cell x y =>
        match lookupA acc.2.1 (x, y) with
        | some t => (p.1, { p.2 with pos := MPos.cell t.1 t.2 })
        | none => p
      | MPos.out => p
    else p)
  ({ s with board := acc.1, mice := mice },
   "TOTAL ENTROPY: " ++ String.intercalate ", " acc.2.2)

/-- `_trigger_entropy`: shuffle the critical row (no-op log when the row
holds no gears). -/
def triggerEntropy (s : GameState) (er : EntropyRand) : GameState × String :=
  if (entropyRow s).isEmpty then (s, "ENTROPY: No targets.")
  else entropyApply s er (entropyRow s)

/-! ## Move processing -/

/-- The board/inventory mutation of a validated placement: write the gear
string (occupancy code from the gear type's valid bases) and decrement the
inventory. -/
def placedState (s : GameState) (gd x y : Nat) (topo : Topo) (bInit : Nat) : GameState :=
  { s with
    board := updateA s.board (x, y)
      (Cell.gear ⟨gd, (x, y), topo, bInit,
        (List.range 4).map (fun i => if i ∈ gearBases gd then 0 else 2)⟩)
    inventory := updateA s.inventory gd ((lookupA s.inventory gd).getD 0 - 1) }

/-- The execution tail of a validated placement: mutate the board and
inventory, run the entry check and fire the rotation cascade from the new
gear. -/
def placeGear (s : GameState) (gd x y : Nat) (topo : Topo) (bInit : Nat) (rot : RotStr) :
    Except String GameState :=
  checkEntries (placedState s gd x y topo bInit)
  >>= fun s2 => Except.ok (applyRotation s2 (x, y) rot)

/-- The Placement-Phase branch of `process_move`'s `try` block: format,
base-index, inventory, cell and first-row/adjacency validation in the
source's order, then the placement execution.  Raised messages are the
source's exception texts; a cell id that is not a board key raises
`KeyError`. -/
def placementMove (s : GameState) (mainMove : List Char) : Except String GameState :=
  match matchPlacement mainMove with
  | none => Except.error "Invalid Format Phase 1"
  | some (gd, ds, bInit, rot) =>
    if 3 < bInit then
      Except.error ("Invalid b=" ++ toString bInit ++ ". Must be 0, 1, 2, or 3.")
    else if (lookupA s.inventory gd).getD 0 < 1 then
      Except.error ("No G" ++ toString gd ++ " remaining")
    else
      match ds with
      | [x, y] =>
        match lookupA s.board (x, y) with
        | none => Except.error (keyErrorMsg ds)
        | some Cell.obstacle => Except.error "Is obstacle"
        | some (Cell.gear _) => Except.error "Already occupied"
        | some (Cell.empty topo) =>
          if invSum s = levelInitialInvSum s.levelId then
            if y ≠ 1 then
              Except.error ("Start Rule: First gear (" ++ cellStr (x, y) ++ ") must be in Row 1.")
            else placeGear s gd x y topo bInit rot
          else
            if ¬ checkAdjacency s x y then
              Except.error ("Adjacency Rule: Tile " ++ cellStr (x, y) ++ " has no occupied neighbors.")
            else placeGear s gd x y topo bInit rot
      | _ => Except.error (keyErrorMsg ds)

/-- The pre-move of the Rotation Phase: force-set another gear's rotation
digit.  A pre-move naming an on-board cell without a gear is silently
skipped (the source's `if ... startswith("G")` has no else); one naming a
missing cell raises `KeyError`. -/
def preMoveStep (s : GameState) (pm : List Char) : Except String GameState :=
  match matchPreMove pm with
  | none =>
    Except.error ("Invalid Pre-Move Format: '" ++ String.mk pm ++ "'. Required: G@Pxy:b=n")
  | some (pds, pb) =>
    if 3 < pb then
      Except.error ("Invalid Pre-move b=" ++ toString pb ++ ". Must be 0, 1, 2, or 3.")
    else
      match pds with
      | [px, py] =>
        match lookupA s.board (px, py) with
        | none => Except.error (keyErrorMsg pds)
        | some (Cell.gear pg) =>
          Except.ok { s with board := updateA s.board (px, py) (Cell.gear { pg with rot := pb }) }
        | some _ => Except.ok s
      | _ => Except.error (keyErrorMsg pds)

/-- The Rotation-Phase branch of `process_move`'s `try` block: parse the
main move, require a gear at its cell (a missing key raises `KeyError`),
run the optional pre-move, then fire the cascade from the main cell. -/
def rotationMove (s : GameState) (preMove : Option (List Char)) (mainMove : List Char) :
    Except String GameState :=
  match matchRotMain mainMove with
  | none => Except.error "Invalid Format Phase 2"
  | some (ds, rot) =>
    match ds with
    | [x, y] =>
      match lookupA s.board (x, y) with
      | none => Except.error (keyErrorMsg ds)
      | some (Cell.gear _) =>
        (match preMove with
         | none => Except.ok s
         | some pm => preMoveStep s pm)
        >>= fun s1 => Except.ok (applyRotation s1 (x, y) rot)
      | some _ => Except.error "Not a Gear"
    | _ => Except.error (keyErrorMsg ds)

/-- The tail of `process_move`'s `try` block after the phase branch
produced `s1`: the entropy injection (exactly when a placement — `isP` —
emptied the inventory and the one-shot flag is clear), the post-move entry
check and the jump pass.  Returns the state and the entropy log (empty
when entropy did not fire). -/
def afterPhase (isP : Bool) (er : EntropyRand) (s1 : GameState) :
    Except String (GameState × String) :=
  let se :=
    if isP ∧ invSum s1 = 0 ∧ s1.entropyTriggered = false then
      ({ (triggerEntropy s1 er).1 with entropyTriggered := true }, (triggerEntropy s1 er).2)
    else (s1, "")
  checkEntries se.1 >>= fun s2 =>
  checkJumps s2 >>= fun s3 =>
  Except.ok (s3, se.2)

/-- The whole `try` block of `process_move`: phase branch, then
`afterPhase`. -/
def tryMove (s : GameState) (isPlacement : Bool) (preMove : Option (List Char))
    (mainMove : List Char) (er : EntropyRand) : Except String (GameState × String) :=
  if isPlacement then placementMove s mainMove >>= afterPhase true er
  else rotationMove s preMove mainMove >>= afterPhase false er

/-- `_count_rescued_mice`. -/
def countRescued (s : GameState) : Nat :=
  (s.mice.filter (fun p => p.2.status = MStatus.escaped)).length

/-- `_calculate_final_score`: `int((score * ideal_moves) / moves_count)`.
Python's `int()` of the float quotient truncates toward zero, which for
the engine's value ranges equals exact truncated integer division
(`Int.tdiv`), the model used here. -/
def calculateFinalScore (s : GameState) : Int :=
  if s.movesCount = 0 then 0
  else Int.tdiv (s.scoreAccumulated * (s.idealMoves : Int)) (s.movesCount : Int)

/-- `_update_metrics`: refresh completion, detect `VICTORY` (all mice
escaped, checked first) or `TIMEOUT` (move budget reached), and set the
final benchmark score exactly at game end. -/
def updateMetrics (s : GameState) : GameState :=
  let rescued := countRescued s
  let total := s.mice.length
  let s1 := { s with completionPercent := ((rescued : ℚ) / (total : ℚ)) * 100 }
  let s2 :=
    if rescued = total then { s1 with isGameOver := true, gameResult := "VICTORY" }
    else if s1.maxMoves ≤ s1.movesCount then { s1 with isGameOver := true, gameResult := "TIMEOUT" }
    else s1
  if s2.isGameOver then { s2 with finalBenchmarkScore := calculateFinalScore s2 }
  else { s2 with finalBenchmarkScore := 0 }

/-- The result of `process_move`: success flag, the engine state after the
move (the source returns its `get_state()` snapshot, a pure function of
this state), and the message. -/
structure MoveResult where
  success : Bool
  state : GameState
  msg : String
deriving Repr

/-- `process_move(move_str)`: terminated sessions are rejected without any
mutation; otherwise the phase is fixed by the inventory sum, the command is
split on `";"` into an optional pre-move and the main move, and the `try`
block runs.  Success appends the move to history; any exception is caught,
logged as `[ERROR]`, and reported.  Both outcomes charge a turn and
recompute the metrics. -/
def processMove (s : GameState) (moveStr : String) (er : EntropyRand) : MoveResult :=
  if s.isGameOver then
    { success := false, state := s, msg := "Game ended." }
  else
    let isPlacement : Bool := 0 < invSum s
    let parts := splitSemis moveStr.toList
    let mainMove := stripWs (parts.getLastD [])
    let preMove := if 1 < parts.length then some (stripWs (parts.headD [])) else none
    match tryMove s isPlacement preMove mainMove er with
    | Except.ok p =>
      let s5 := { p.1 with
        history := p.1.history ++ ["J" ++ toString (p.1.movesCount + 1) ++ ": " ++ moveStr] }
      let s6 := updateMetrics { s5 with movesCount := s5.movesCount + 1 }
      { success := true, state := s6,
        msg := if p.2 = "" then "OK" else "OK | ⚠️ " ++ p.2 }
    | Except.error e =>
      let s5 := { s with
        history := s.history ++ ["J" ++ toString (s.movesCount + 1) ++ ": [ERROR] " ++ moveStr] }
      let s6 := updateMetrics { s5 with movesCount := s5.movesCount + 1 }
      { success := false, state := s6, msg := "FAILED MOVE (Turn lost): " ++ e }

/-! ## State serialization (board encoding) -/

/-- Topology letter. -/
def topoStr : Topo → String
  | Topo.R => "R"
  | Topo.L => "L"

/-- The dynamic occupancy code of a gear cell in `_generate_board_encoding`:
digit `i` is `'2'` for a base the gear type does not have, else `'1'` when
some mouse sits at this cell on base `i`, else `'0'`; the digits stored in
the internal gear string are ignored. -/
def occCode (key : Nat × Nat) (g : GearData) (mice : List (Nat × Mouse)) : List Char :=
  (List.range 4).map (fun i =>
    if i ∉ gearBases g.gtype then '2'
    else if mice.any (fun p => p.2.pos = MPos.cell key.1 key.2 ∧ p.2.onBase = some i) then '1'
    else '0')

/-- The full encoding of one gear cell: static part (type, cell id,
topology) followed by the rotation digit, `'B'` and the recomputed
occupancy code. -/
def encodeGearCell (key : Nat × Nat) (g : GearData) (mice : List (Nat × Mouse)) : String :=
  "G" ++ toString g.gtype ++ cellStr key ++ topoStr g.topo ++ toString g.rot ++ "B"
    ++ String.mk (occCode key g mice)

/-- Per-cell case split of `_generate_board_encoding`: gear cells are
re-encoded, obstacle and empty cells are passed through as-is (their
stored strings are exactly `"obstacle"` and `"Pxy{topo}"`). -/
def encodeCell (mice : List (Nat × Mouse)) (k : Nat × Nat) : Cell → String
  | Cell.gear g => encodeGearCell k g mice
  | Cell.obstacle => "obstacle"
  | Cell.empty t => cellStr k ++ topoStr t

/-- `_generate_board_encoding`: gear cells are re-encoded with the ground
truth occupancy computed from the mouse registry; other cells are passed
through as-is. -/
def generateBoardEncoding (s : GameState) : List ((Nat × Nat) × String) :=
  s.board.map (fun kv => (kv.1, encodeCell s.mice kv.1 kv.2))

/-! ## Sessions -/

/-- One step of a session: the state after `process_move`. -/
def stepSession (s : GameState) (mv : String × EntropyRand) : GameState :=
  (processMove s mv.1 mv.2).state

/-- A session: `reset(level_id)` followed by a list of moves (each with the
randomness the entropy event would consume). -/
def runSession (lid : String) (moves : List (String × EntropyRand)) : GameState :=
  moves.foldl stepSession (reset lid)

/-! ## Association-list lemmas -/

theorem lookupA_map_value {α β : Type} [DecidableEq α] (f : β → β) (l : List (α × β)) (k : α) :
    lookupA (l.map (fun kv => (kv.1, f kv.2))) k = (lookupA l k).map f := by
  induction l with
  | nil => rfl
  | cons hd t ih =>
    by_cases h : hd.1 = k
    · simp [lookupA, h]
    · simp [lookupA, h, ih]

theorem lookupA_updateA_ne {α β : Type} [DecidableEq α] (l : List (α × β)) (k k' : α) (v : β)
    (h : k ≠ k') : lookupA (updateA l k v) k' = lookupA l k' := by
  induction l with
  | nil => rfl
  | cons hd t ih =>
    by_cases hk : hd.1 = k
    · simp [updateA, hk, lookupA, h]
    · simp only [updateA, hk, if_false, lookupA, ih]

theorem lookupA_updateA_self {α β : Type} [DecidableEq α] (l : List (α × β)) (k : α) (v v0 : β)
    (h : lookupA l k = some v0) : lookupA (updateA l k v) k = some v := by
  induction l with
  | nil => simp [lookupA] at h
  | cons hd t ih =>
    by_cases hk : hd.1 = k
    · simp [updateA, hk, lookupA]
    · simp only [lookupA, hk, if_false] at h
      simp only [updateA, hk, if_false, lookupA, ih h]

theorem lookupA_mem {α β : Type} [DecidableEq α] (l : List (α × β)) (k : α) (v : β)
    (h : lookupA l k = some v) : (k, v) ∈ l := by
  induction l with
  | nil => simp [lookupA] at h
  | cons hd t ih =>
    by_cases hk : hd.1 = k
    · simp only [lookupA, hk, if_true, Option.some.injEq] at h
      subst hk
      subst h
      exact List.mem_cons_self _ _
    · simp only [lookupA, hk, if_false] at h
      exact List.mem_cons_of_mem _ (ih h)

theorem mem_updateA {α β : Type} [DecidableEq α] (l : List (α × β)) (k : α) (v : β)
    (p : α × β) (h : p ∈ updateA l k v) : p ∈ l ∨ p = (k, v) := by
  induction l with
  | nil => simp [updateA] at h
  | cons hd t ih =>
    by_cases hk : hd.1 = k
    · simp only [updateA, hk, if_true] at h
      rcases List.mem_cons.mp h with h1 | h1
      · exact Or.inr h1
      · exact Or.inl (List.mem_cons_of_mem _ h1)
    · simp only [updateA, hk, if_false] at h
      rcases List.mem_cons.mp h with h1 | h1
      · left
        rw [h1]
        exact List.mem_cons_self _ _
      · rcases ih h1 with h2 | h2
        · exact Or.inl (List.mem_cons_of_mem _ h2)
        · exact Or.inr h2

theorem map_fst_updateA {α β : Type} [DecidableEq α] (l : List (α × β)) (k : α) (v : β) :
    (updateA l k v).map Prod.fst = l.map Prod.fst := by
  induction l with
  | nil => rfl
  | cons hd t ih =>
    by_cases hk : hd.1 = k
    · simp [updateA, hk]
    · simp [updateA, hk, ih]

/-- Updating a present key changes the value sum by the value delta
(stated addition-only to stay in `Nat`). -/
theorem sum_updateA {α : Type} [DecidableEq α] (l : List (α × Nat)) (k : α) (v v0 : Nat)
    (h : lookupA l k = some v0) :
    ((updateA l k v).map Prod.snd).sum + v0 = (l.map Prod.snd).sum + v := by
  induction l with
  | nil => simp [lookupA] at h
  | cons hd t ih =>
    by_cases hk : hd.1 = k
    · simp only [lookupA, hk, if_true, Option.some.injEq] at h
      subst h
      simp [updateA, hk]
      ring
    · simp only [lookupA, hk, if_false] at h
      simp only [updateA, hk, if_false, List.map_cons, List.sum_cons]
      have := ih h
      omega

/-! ## Example states -/

/-- A state skeleton with level-1 counters, used to build concrete
scenario states. -/
def mkState (w h : Nat) (board : List ((Nat × Nat) × Cell)) (inv : List (Nat × Nat))
    (mice : List (Nat × Mouse)) : GameState :=
  { width := w
    height := h
    board := board
    inventory := inv
    mice := mice
    movesCount := 0
    maxMoves := 22
    idealMoves := 12
    scoreAccumulated := 0
    history := []
    levelId := "1"
    isGameOver := false
    gameResult := "IN_PROGRESS"
    completionPercent := 0
    finalBenchmarkScore := 0
    entropyTriggered := false }

/-- Deterministic entropy randomness for concrete runs (identity shuffle,
rotation draws `0`). -/
def er0 : EntropyRand := ⟨id, fun _ => 0⟩

/-- A Rotation-Phase state (inventory exhausted): a lone `G2` gear at
`P21` with rotation `0`, an `L` cell, one waiting mouse in column 1 whose
entry cell `P11` is empty. -/
def exRot : GameState :=
  mkState 3 3
    [((1, 1), Cell.empty Topo.R),
     ((2, 1), Cell.gear ⟨2, (2, 1), Topo.L, 0, [0, 2, 0, 2]⟩),
     ((3, 1), Cell.empty Topo.R),
     ((1, 2), Cell.empty Topo.L),
     ((2, 2), Cell.obstacle),
     ((3, 2), Cell.empty Topo.L),
     ((1, 3), Cell.empty Topo.R),
     ((2, 3), Cell.empty Topo.L),
     ((3, 3), Cell.empty Topo.R)]
    [(1, 0), (2, 0), (3, 0), (4, 0)]
    [(1, ⟨MPos.cell 1 0, none, MStatus.waiting⟩)]

/-- The rotation digit of the gear at a cell, if any. -/
def rotAt (s : GameState) (k : Nat × Nat) : Option Nat :=
  match lookupA s.board k with
  | some (Cell.gear g) => some g.rot
  | _ => none

/-! ## C1: rotation cascade -/

/-- The signed rotation delta the source applies: `_calc_rotation` adds
`1` for `"+90"` and `-1` for `"-90"`. -/
def rotDelta : RotStr → Int
  | RotStr.plus90 => 1
  | RotStr.minus90 => -1

theorem calcRotation_eq_delta (b : Nat) (r : RotStr) :
    calcRotation b r = (((b : Int) + rotDelta r).emod 4).toNat := by
  cases r <;> rfl

theorem rotDelta_invRot (r : RotStr) : rotDelta (invRot r) = - rotDelta r := by
  cases r <;> rfl

theorem rotCell_gear (t : Topo) (r : RotStr) (g : GearData) :
    rotCell t r (Cell.gear g) =
      Cell.gear { g with rot :=
        (((g.rot : Int) + (if g.topo = t then rotDelta r else - rotDelta r)).emod 4).toNat } := by
  have h0 : rotCell t r (Cell.gear g) =
      (if calcRotation g.rot (if g.topo ≠ t then invRot r else r) ≠ g.rot then
        Cell.gear { g with rot := calcRotation g.rot (if g.topo ≠ t then invRot r else r) }
      else Cell.gear g) := rfl
  rw [h0]
  by_cases ht : g.topo = t
  · rw [if_neg (not_not_intro ht), if_pos ht, calcRotation_eq_delta]
    by_cases hb : (((g.rot : Int) + rotDelta r).emod 4).toNat = g.rot
    · rw [if_neg (not_not_intro hb), hb]
    · rw [if_pos hb]
  · rw [if_pos ht, if_neg ht, calcRotation_eq_delta, rotDelta_invRot]
    by_cases hb : (((g.rot : Int) + - rotDelta r).emod 4).toNat = g.rot
    · rw [if_neg (not_not_intro hb), hb]
    · rw [if_pos hb]

/-- C1 counterexample: the claim predicts `delta = -1` for `+90`, i.e. a
driver gear of rotation `0` rotated by `+90` would end at `(0 - 1) mod 4 = 3`;
the code's `_calc_rotation` adds `1` for `+90`, so it ends at `1`. -/
theorem C1_counterexample :
    rotAt (applyRotation exRot (2, 1) RotStr.plus90) (2, 1) = some 1 ∧
      rotAt (applyRotation exRot (2, 1) RotStr.plus90) (2, 1) ≠ some 3 := by
  constructor
  · rfl
  · decide

/-- C1 (corrected): rotation cascade.  For every board state and every
driver cell holding a gear, processing a rotation updates every gear on
the board in the same tick: a gear with the driver's topology receives the
same signed delta, a gear with opposite topology the inverted sign, and
the new rotation is `(old_rotation + delta) mod 4` — with `delta = +1` for
`+90` and `delta = -1` for `-90` (the signs the source applies, opposite
to the claim's). -/
theorem C1_rotation_cascade (s : GameState) (k : Nat × Nat) (dg : GearData) (r : RotStr)
    (k' : Nat × Nat) (g : GearData)
    (hd : lookupA s.board k = some (Cell.gear dg))
    (hg : lookupA s.board k' = some (Cell.gear g)) :
    lookupA (applyRotation s k r).board k' =
      some (Cell.gear { g with rot :=
        (((g.rot : Int) + (if g.topo = dg.topo then rotDelta r else - rotDelta r)).emod 4).toNat }) := by
  have h1 : applyRotation s k r =
      { s with board := s.board.map (fun kv => (kv.1, rotCell dg.topo r kv.2)) } := by
    unfold applyRotation
    rw [hd]
  rw [h1]
  show lookupA (s.board.map (fun kv => (kv.1, rotCell dg.topo r kv.2))) k' = _
  rw [lookupA_map_value (rotCell dg.topo r) s.board k', hg]
  show some (rotCell dg.topo r (Cell.gear g)) = _
  rw [rotCell_gear]

/-- C1 witness: the cascade theorem evaluated on `exRot`, whose single `L`
gear at `(2,1)` has rotation `0` and is its own driver: `+90` yields
rotation `1`. -/
theorem C1_rotation_cascade_witness :
    lookupA (applyRotation exRot (2, 1) RotStr.plus90).board (2, 1) =
      some (Cell.gear ⟨2, (2, 1), Topo.L, 1, [0, 2, 0, 2]⟩) := by
  have h := C1_rotation_cascade exRot (2, 1) ⟨2, (2, 1), Topo.L, 0, [0, 2, 0, 2]⟩
    RotStr.plus90 (2, 1) ⟨2, (2, 1), Topo.L, 0, [0, 2, 0, 2]⟩ (by rfl) (by rfl)
  simpa using h

/-! ## C5: first-placement scenario on level "1" -/

/-- C5 counterexample: on level `"1"` immediately after `reset`, the first
move `G4@P21(b=0)+90` SUCCEEDS — cell ids are `P<x><y>`, so `"P21"` is
column 2 of row 1 and satisfies the first-row rule — and the `G4`
inventory is decremented to 1, contradicting the claimed rule violation
with unchanged inventory. -/
theorem C5_counterexample :
    (processMove (reset "1") "G4@P21(b=0)+90" er0).success = true ∧
      lookupA (processMove (reset "1") "G4@P21(b=0)+90" er0).state.inventory 4 = some 1 := by
  exact ⟨by rfl, by rfl⟩

/-- C5 (corrected): on level `"1"` (3×3 board, map `"111101111"`),
immediately after reset, processing `G4@P21(b=0)+90` as the first move
succeeds (`P21` is row 1: ids are column-then-row), charges turn 1, and
decrements the `G4` inventory from 2 to 1, leaving the rest unchanged. -/
theorem C5_first_placement :
    (processMove (reset "1") "G4@P21(b=0)+90" er0).success = true ∧
      (processMove (reset "1") "G4@P21(b=0)+90" er0).msg = "OK" ∧
      (processMove (reset "1") "G4@P21(b=0)+90" er0).state.movesCount = 1 ∧
      (processMove (reset "1") "G4@P21(b=0)+90" er0).state.inventory =
        [(1, 2), (2, 3), (3, 1), (4, 1)] := by
  exact ⟨by rfl, by rfl, by rfl, by rfl⟩

/-! ## C7: moves on a terminated session -/

/-- A terminated session (game-over flag set after 5 moves). -/
def exOver : GameState := { exRot with isGameOver := true, gameResult := "TIMEOUT", movesCount := 5 }

/-- C7 counterexample: on a terminated session with 5 moves used,
`process_move` returns early — the move counter stays at 5 instead of
being charged to 6 as the claim states. -/
theorem C7_counterexample :
    (processMove exOver "G@P21+90" er0).state.movesCount = 5 ∧
      (processMove exOver "G@P21+90" er0).state.movesCount ≠ exOver.movesCount + 1 := by
  exact ⟨by rfl, by decide⟩

/-- C7 (corrected): calling `process_move` on a session whose game-over
flag is set fails the move with `success = false` and the message
`"Game ended."`, but — unlike every other error kind — it returns before
the turn-penalty block: no turn is charged and the state is returned
unmutated. -/
theorem C7_terminated (s : GameState) (cmd : String) (er : EntropyRand)
    (h : s.isGameOver = true) :
    processMove s cmd er = { success := false, state := s, msg := "Game ended." } := by
  unfold processMove
  rw [h]
  simp

/-- C7 witness: the terminated-session theorem evaluated on `exOver`. -/
theorem C7_terminated_witness :
    processMove exOver "G@P21+90" er0 = { success := false, state := exOver, msg := "Game ended." } :=
  C7_terminated exOver "G@P21+90" er0 (by rfl)

/-! ## C8: final efficiency score -/

/-- A Rotation-Phase state one move from the budget with a negative
accumulated score (`-10`), ideal moves 12, budget 22. -/
def exC8 : GameState := { exRot with movesCount := 21, scoreAccumulated := -10 }

/-- C8 counterexample: rotating once more terminates the session by
TIMEOUT at 22 moves used; the final benchmark score is
`int(-10 * 12 / 22) = -5` (truncation toward zero), while the claimed
mathematical floor is `-6`. -/
theorem C8_counterexample :
    (processMove exC8 "G@P21+90" er0).state.isGameOver = true ∧
      (processMove exC8 "G@P21+90" er0).state.finalBenchmarkScore = -5 ∧
      Int.fdiv ((-10 : Int) * 12) 22 = -6 := by
  exact ⟨by rfl, by rfl, by decide⟩

theorem updateMetrics_final (s : GameState) :
    (updateMetrics s).finalBenchmarkScore =
      if (updateMetrics s).isGameOver = true then calculateFinalScore s else 0 := by
  unfold updateMetrics
  by_cases hA : countRescued s = s.mice.length
  · simp [hA, calculateFinalScore]
  · by_cases hB : s.maxMoves ≤ s.movesCount
    · simp [hA, hB, calculateFinalScore]
    · by_cases hC : s.isGameOver = true
      · simp [hA, hB, hC, calculateFinalScore]
      · simp [hA, hB, hC]

/-- C8 (corrected): whenever `_update_metrics` terminates the game
(VICTORY or TIMEOUT), the final benchmark score is the truncation toward
zero (Python `int()`) of `accumulated_score × ideal_moves / moves_used` —
not the mathematical floor, the two differing on negative non-exact
quotients — and `0` when `moves_used == 0`. -/
theorem C8_final_score (s : GameState) (h : (updateMetrics s).isGameOver = true) :
    (updateMetrics s).finalBenchmarkScore =
      if s.movesCount = 0 then 0
      else Int.tdiv (s.scoreAccumulated * (s.idealMoves : Int)) (s.movesCount : Int) := by
  rw [updateMetrics_final, if_pos h]
  unfold calculateFinalScore
  rfl

/-! ## Decomposition lemmas for `processMove` -/

/-- `_update_metrics` only writes the completion/game-over/score summary
fields; everything the move pipeline produced is preserved. -/
theorem updateMetrics_stable (s : GameState) :
    (updateMetrics s).board = s.board ∧ (updateMetrics s).movesCount = s.movesCount ∧
    (updateMetrics s).history = s.history ∧ (updateMetrics s).inventory = s.inventory ∧
    (updateMetrics s).entropyTriggered = s.entropyTriggered ∧
    (updateMetrics s).mice = s.mice ∧
    (updateMetrics s).scoreAccumulated = s.scoreAccumulated := by
  unfold updateMetrics
  by_cases hA : countRescued s = s.mice.length
  · simp [hA]
  · by_cases hB : s.maxMoves ≤ s.movesCount
    · simp [hA, hB]
    · by_cases hC : s.isGameOver = true <;> simp [hA, hB, hC]

/-- On a live session, a caught exception in the `try` block yields the
failure response: `[ERROR]` history line, turn charge, metrics refresh. -/
theorem processMove_eq_error (s : GameState) (cmd : String) (er : EntropyRand) (e : String)
    (hov : s.isGameOver = false)
    (h : tryMove s (decide (0 < invSum s))
      (if 1 < (splitSemis cmd.toList).length then some (stripWs ((splitSemis cmd.toList).headD []))
       else none)
      (stripWs ((splitSemis cmd.toList).getLastD [])) er = Except.error e) :
    processMove s cmd er =
      { success := false
        state := updateMetrics { s with
          history := s.history ++ ["J" ++ toString (s.movesCount + 1) ++ ": [ERROR] " ++ cmd]
          movesCount := s.movesCount + 1 }
        msg := "FAILED MOVE (Turn lost): " ++ e } := by
  unfold processMove
  rw [hov]
  simp only [Bool.false_eq_true, if_false, h]

/-- On a live session, a completed `try` block yields the success
response: history line, turn charge, metrics refresh, entropy-aware
message. -/
theorem processMove_eq_ok (s : GameState) (cmd : String) (er : EntropyRand)
    (p : GameState × String)
    (hov : s.isGameOver = false)
    (h : tryMove s (decide (0 < invSum s))
      (if 1 < (splitSemis cmd.toList).length then some (stripWs ((splitSemis cmd.toList).headD []))
       else none)
      (stripWs ((splitSemis cmd.toList).getLastD [])) er = Except.ok p) :
    processMove s cmd er =
      { success := true
        state := updateMetrics { p.1 with
          history := p.1.history ++ ["J" ++ toString (p.1.movesCount + 1) ++ ": " ++ cmd]
          movesCount := p.1.movesCount + 1 }
        msg := if p.2 = "" then "OK" else "OK | ⚠️ " ++ p.2 } := by
  unfold processMove
  rw [hov]
  simp only [Bool.false_eq_true, if_false, h]

/-- In the Rotation Phase the entropy block is inert: the `try` block is
the phase branch followed by the entry and jump passes. -/
theorem tryMove_rotation (s : GameState) (pre : Option (List Char)) (main : List Char)
    (er : EntropyRand) :
    tryMove s false pre main er =
      rotationMove s pre main >>= fun s1 =>
        checkEntries s1 >>= fun s2 => checkJumps s2 >>= fun s3 => Except.ok (s3, "") := by
  unfold tryMove
  rw [if_neg (by simp : ¬ (false : Bool) = true)]
  cases hr : rotationMove s pre main with
  | error e => rfl
  | ok s1 =>
    simp only [bind, Except.bind]
    unfold afterPhase
    have hfire : ¬((false : Bool) = true ∧ invSum s1 = 0 ∧ s1.entropyTriggered = false) := by
      simp
    rw [if_neg hfire]
    rfl

/-- C8 witness: the final-score theorem evaluated at TIMEOUT with 22 moves
used, score `-10`, ideal 12: benchmark score `-5`. -/
theorem C8_final_score_witness :
    (updateMetrics { exC8 with movesCount := 22 }).finalBenchmarkScore =
      if ({ exC8 with movesCount := 22 } : GameState).movesCount = 0 then 0
      else Int.tdiv (({ exC8 with movesCount := 22 } : GameState).scoreAccumulated *
        (({ exC8 with movesCount := 22 } : GameState).idealMoves : Int))
        (({ exC8 with movesCount := 22 } : GameState).movesCount : Int) :=
  C8_final_score { exC8 with movesCount := 22 } (by rfl)

/-! ## C6: pre-move validation -/

/-- A well-formed pre-move naming an on-board cell that does not hold a
gear is silently skipped (the source's `startswith("G")` guard has no
else branch). -/
theorem preMoveStep_skip (s : GameState) (pm : List Char) (pds : List Nat) (pb px py : Nat)
    (c : Cell)
    (hpm : matchPreMove pm = some (pds, pb)) (hpb : ¬ 3 < pb)
    (hpds : pds = [px, py])
    (hc : lookupA s.board (px, py) = some c)
    (hng : ∀ g, c ≠ Cell.gear g) :
    preMoveStep s pm = Except.ok s := by
  unfold preMoveStep
  rw [hpm]
  subst hpds
  cases c with
  | obstacle => simp only [if_neg hpb, hc]
  | empty t => simp only [if_neg hpb, hc]
  | gear g => exact absurd rfl (hng g)

/-- A well-formed pre-move naming a cell that is not a board key raises
`KeyError`. -/
theorem preMoveStep_keyError (s : GameState) (pm : List Char) (pds : List Nat) (pb : Nat)
    (hpm : matchPreMove pm = some (pds, pb)) (hpb : ¬ 3 < pb)
    (hmiss : boardLookupDigits s pds = none) :
    preMoveStep s pm = Except.error (keyErrorMsg pds) := by
  unfold preMoveStep
  rw [hpm]
  simp only [if_neg hpb]
  match pds, hmiss with
  | [], _ => rfl
  | [px], _ => rfl
  | px :: py :: t :: rest, _ => rfl
  | [px, py], hmiss =>
    simp only [boardLookupDigits] at hmiss
    simp only [hmiss]

/-- The Rotation-Phase branch with a pre-move that resolves to a skip is
the same as with no pre-move at all. -/
theorem rotationMove_skip (s : GameState) (pm main : List Char)
    (hskip : preMoveStep s pm = Except.ok s) :
    rotationMove s (some pm) main = rotationMove s none main := by
  unfold rotationMove
  cases hmain : matchRotMain main with
  | none => rfl
  | some dr =>
    match dr with
    | (ds, r) =>
      match ds with
      | [] => rfl
      | [x] => rfl
      | x :: y :: t :: rest => rfl
      | [x, y] =>
        cases hc : lookupA s.board (x, y) with
        | none => simp only [hc]
        | some c =>
          cases c with
          | obstacle => simp only [hc]
          | empty t => simp only [hc]
          | gear g => simp only [hc, hskip, bind, Except.bind]

/-- C6 counterexample: in `exRot` (Rotation Phase, gear at `P21`, cell
`P11` empty), the move `"G@P11:b=0;G@P21+90"` has a pre-move referencing a
cell that does not hold a gear; the claim demands a validation failure
with no board mutation, but the move succeeds and the main rotation is
applied (`P21`'s rotation becomes 1). -/
theorem C6_counterexample :
    (processMove exRot "G@P11:b=0;G@P21+90" er0).success = true ∧
      rotAt (processMove exRot "G@P11:b=0;G@P21+90" er0).state (2, 1) = some 1 := by
  exact ⟨by rfl, by rfl⟩

/-- C6 (corrected): in Rotation Phase, a pre-move referencing a cell that
is not a board key fails the whole move (`KeyError`): no board mutation,
a turn is still consumed, and the move is recorded as failed in history.
A pre-move referencing an existing cell that merely does not hold a gear
is instead silently skipped: the move proceeds exactly as if no pre-move
were given. -/
theorem C6_premove_validation (s : GameState) (cmd : String) (er : EntropyRand)
    (main pm : List Char) (ds pds : List Nat) (x y pb : Nat) (r : RotStr) (g : GearData)
    (hov : s.isGameOver = false) (hph : invSum s = 0)
    (hparts : 1 < (splitSemis cmd.toList).length)
    (hmainEq : stripWs ((splitSemis cmd.toList).getLastD []) = main)
    (hpreEq : stripWs ((splitSemis cmd.toList).headD []) = pm)
    (hmain : matchRotMain main = some (ds, r)) (hds : ds = [x, y])
    (hgear : lookupA s.board (x, y) = some (Cell.gear g))
    (hpm : matchPreMove pm = some (pds, pb)) (hpb : ¬ 3 < pb) :
    (boardLookupDigits s pds = none →
      (processMove s cmd er).success = false ∧
      (processMove s cmd er).state.board = s.board ∧
      (processMove s cmd er).state.movesCount = s.movesCount + 1 ∧
      (processMove s cmd er).state.history =
        s.history ++ ["J" ++ toString (s.movesCount + 1) ++ ": [ERROR] " ++ cmd] ∧
      (processMove s cmd er).msg = "FAILED MOVE (Turn lost): " ++ keyErrorMsg pds) ∧
    (∀ px py c, pds = [px, py] → lookupA s.board (px, py) = some c →
      (∀ g', c ≠ Cell.gear g') →
      rotationMove s (some pm) main = rotationMove s none main) := by
  constructor
  · intro hmiss
    have hrot : rotationMove s (some pm) main = Except.error (keyErrorMsg pds) := by
      subst hds
      simp only [rotationMove, hmain, hgear, bind, Except.bind,
        preMoveStep_keyError s pm pds pb hpm hpb hmiss]
    have hplc : (decide (0 < invSum s)) = false := by
      simp [hph]
    have htry : tryMove s (decide (0 < invSum s))
        (if 1 < (splitSemis cmd.toList).length then some (stripWs ((splitSemis cmd.toList).headD []))
         else none)
        (stripWs ((splitSemis cmd.toList).getLastD [])) er = Except.error (keyErrorMsg pds) := by
      rw [hplc, if_pos hparts, hpreEq, hmainEq, tryMove_rotation, hrot]
      rfl
    have hres := processMove_eq_error s cmd er (keyErrorMsg pds) hov htry
    rw [hres]
    have hst := updateMetrics_stable { s with
      history := s.history ++ ["J" ++ toString (s.movesCount + 1) ++ ": [ERROR] " ++ cmd]
      movesCount := s.movesCount + 1 }
    exact ⟨rfl, hst.1, hst.2.1, hst.2.2.1, rfl⟩
  · intro px py c hpds hc hng
    exact rotationMove_skip s pm main (preMoveStep_skip s pm pds pb px py c hpm hpb hpds hc hng)

/-- C6 witness: the theorem's failure branch evaluated on `exRot` with the
pre-move naming the off-board cell `P99`, and its skip branch with the
pre-move naming the empty cell `P11`. -/
theorem C6_premove_validation_witness :
    (processMove exRot "G@P99:b=0;G@P21+90" er0).success = false ∧
      (processMove exRot "G@P99:b=0;G@P21+90" er0).state.board = exRot.board ∧
      rotationMove exRot (some "G@P11:b=0".toList) "G@P21+90".toList =
        rotationMove exRot none "G@P21+90".toList := by
  have h := C6_premove_validation exRot "G@P99:b=0;G@P21+90" er0
    "G@P21+90".toList "G@P99:b=0".toList [2, 1] [9, 9] 2 1 0 RotStr.plus90
    ⟨2, (2, 1), Topo.L, 0, [0, 2, 0, 2]⟩
    (by rfl) (by rfl) (by decide) (by rfl) (by rfl) (by rfl) (by rfl) (by rfl)
    (by rfl) (by decide)
  have h2 := C6_premove_validation exRot "G@P11:b=0;G@P21+90" er0
    "G@P21+90".toList "G@P11:b=0".toList [2, 1] [1, 1] 2 1 0 RotStr.plus90
    ⟨2, (2, 1), Topo.L, 0, [0, 2, 0, 2]⟩
    (by rfl) (by rfl) (by decide) (by rfl) (by rfl) (by rfl) (by rfl) (by rfl)
    (by rfl) (by decide)
  have ha := h.1 (by rfl)
  refine ⟨ha.1, ha.2.1, ?_⟩
  exact h2.2 1 1 (Cell.empty Topo.R) rfl (by rfl) (by intro g hcontra; cases hcontra)

/-! ## C9: snapshot occupancy code -/

/-- Association-list map that may use the key: lookup commutes. -/
theorem lookupA_map_keyed {α β γ : Type} [DecidableEq α] (f : α → β → γ)
    (l : List (α × β)) (k : α) :
    lookupA (l.map (fun kv => (kv.1, f kv.1 kv.2))) k = (lookupA l k).map (f k) := by
  induction l with
  | nil => rfl
  | cons hd t ih =>
    by_cases h : hd.1 = k
    · subst h
      simp [lookupA]
    · simp [lookupA, h, ih]

/-- The recomputed occupancy code has exactly four digits. -/
theorem occCode_length (key : Nat × Nat) (g : GearData) (mice : List (Nat × Mouse)) :
    (occCode key g mice).length = 4 := by
  simp [occCode]

/-- Digit `i` of the recomputed occupancy code, by the source's priority:
absent base, else mouse present, else empty. -/
theorem occCode_get (key : Nat × Nat) (g : GearData) (mice : List (Nat × Mouse))
    (i : Nat) (hi : i < 4) :
    (occCode key g mice)[i]? = some
      (if i ∉ gearBases g.gtype then '2'
       else if mice.any (fun p => p.2.pos = MPos.cell key.1 key.2 ∧ p.2.onBase = some i) then '1'
       else '0') := by
  simp [occCode, List.getElem?_map, List.getElem?_range hi]

/-- A state with a mouse riding the `exRot` gear (base 0 of `P21`), used
to witness the occupancy-code theorem. -/
def exC9 : GameState :=
  { exRot with mice := [(1, ⟨MPos.cell 2 1, some 0, MStatus.inPlay⟩)] }

/-- C9 (confirmed): in every snapshot, for every cell holding a gear, the
emitted gear token ends in the 4-digit occupancy code recomputed from the
mouse registry (the digits stored in the internal board string are never
read): digit `i` is `'2'` iff base `i` is not in the gear type's
valid-base set; `'1'` iff the base exists and some mouse's position is
that cell with `on_base = i`; `'0'` otherwise. -/
theorem C9_occupancy_ground_truth (s : GameState) (x y : Nat) (g : GearData)
    (h : lookupA s.board (x, y) = some (Cell.gear g)) (i : Nat) (hi : i < 4) :
    lookupA (generateBoardEncoding s) (x, y) = some (encodeGearCell (x, y) g s.mice) ∧
    (∀ bases', occCode (x, y) { g with bases := bases' } s.mice = occCode (x, y) g s.mice) ∧
    (encodeGearCell (x, y) g s.mice).toList.drop
        ((encodeGearCell (x, y) g s.mice).toList.length - 4) = occCode (x, y) g s.mice ∧
    ((occCode (x, y) g s.mice)[i]? = some '2' ↔ i ∉ gearBases g.gtype) ∧
    ((occCode (x, y) g s.mice)[i]? = some '1' ↔
      i ∈ gearBases g.gtype ∧ ∃ p ∈ s.mice, p.2.pos = MPos.cell x y ∧ p.2.onBase = some i) ∧
    ((occCode (x, y) g s.mice)[i]? = some '0' ↔
      i ∈ gearBases g.gtype ∧ ¬ ∃ p ∈ s.mice, p.2.pos = MPos.cell x y ∧ p.2.onBase = some i) := by
  refine ⟨?_, fun _ => rfl, ?_, ?_, ?_, ?_⟩
  · unfold generateBoardEncoding
    rw [lookupA_map_keyed (encodeCell s.mice) s.board (x, y), h]
    rfl
  · have hsplit : (encodeGearCell (x, y) g s.mice).toList =
        ("G" ++ toString g.gtype ++ cellStr (x, y) ++ topoStr g.topo ++ toString g.rot ++ "B").toList
          ++ occCode (x, y) g s.mice := by
      unfold encodeGearCell
      simp [String.toList]
    rw [hsplit]
    rw [List.length_append, occCode_length]
    rw [Nat.add_sub_cancel]
    exact List.drop_left _ _
  · rw [occCode_get (x, y) g s.mice i hi]
    constructor
    · intro hd
      by_cases hv : i ∉ gearBases g.gtype
      · exact hv
      · rw [if_neg hv] at hd
        by_cases hm : s.mice.any (fun p => p.2.pos = MPos.cell x y ∧ p.2.onBase = some i) = true
        · rw [if_pos hm] at hd
          simp at hd
        · rw [if_neg hm] at hd
          simp at hd
    · intro hv
      rw [if_pos hv]
  · rw [occCode_get (x, y) g s.mice i hi]
    constructor
    · intro hd
      by_cases hv : i ∉ gearBases g.gtype
      · rw [if_pos hv] at hd
        simp at hd
      · rw [if_neg hv] at hd
        by_cases hm : s.mice.any (fun p => p.2.pos = MPos.cell x y ∧ p.2.onBase = some i) = true
        · refine ⟨not_not.mp hv, ?_⟩
          have := List.any_eq_true.mp hm
          rcases this with ⟨p, hp, hpp⟩
          exact ⟨p, hp, of_decide_eq_true hpp⟩
        · rw [if_neg hm] at hd
          simp at hd
    · intro hv
      rw [if_neg (not_not_intro hv.1)]
      rw [if_pos ?_]
      rcases hv.2 with ⟨p, hp, hpp⟩
      exact List.any_eq_true.mpr ⟨p, hp, decide_eq_true hpp⟩
  · rw [occCode_get (x, y) g s.mice i hi]
    constructor
    · intro hd
      by_cases hv : i ∉ gearBases g.gtype
      · rw [if_pos hv] at hd
        simp at hd
      · rw [if_neg hv] at hd
        by_cases hm : s.mice.any (fun p => p.2.pos = MPos.cell x y ∧ p.2.onBase = some i) = true
        · rw [if_pos hm] at hd
          simp at hd
        · refine ⟨not_not.mp hv, ?_⟩
          intro hex
          apply hm
          rcases hex with ⟨p, hp, hpp⟩
          exact List.any_eq_true.mpr ⟨p, hp, decide_eq_true hpp⟩
    · intro hv
      rw [if_neg (not_not_intro hv.1)]
      rw [if_neg ?_]
      intro hm
      rcases List.any_eq_true.mp hm with ⟨p, hp, hpp⟩
      exact hv.2 ⟨p, hp, of_decide_eq_true hpp⟩

/-- C9 witness: the occupancy theorem evaluated on `exC9` (a mouse on base
0 of the `G2` gear at `P21`), digit 0. -/
theorem C9_occupancy_ground_truth_witness :
    lookupA (generateBoardEncoding exC9) (2, 1) =
      some (encodeGearCell (2, 1) ⟨2, (2, 1), Topo.L, 0, [0, 2, 0, 2]⟩ exC9.mice) ∧
    ((occCode (2, 1) ⟨2, (2, 1), Topo.L, 0, [0, 2, 0, 2]⟩ exC9.mice)[0]? = some '1' ↔
      0 ∈ gearBases 2 ∧
        ∃ p ∈ exC9.mice, p.2.pos = MPos.cell 2 1 ∧ p.2.onBase = some 0) := by
  have h := C9_occupancy_ground_truth exC9 2 1 ⟨2, (2, 1), Topo.L, 0, [0, 2, 0, 2]⟩
    (by rfl) 0 (by decide)
  exact ⟨h.1, h.2.2.2.2.1⟩

/-! ## C2: jump admission -/

/-- Every `GEAR_BASES` list is strictly ascending, so the first scan hit
is the least admitting index. -/
theorem gearBases_sorted : ∀ t : Nat, List.Pairwise (· < ·) (gearBases t)
  | 0 => by decide
  | 1 => by decide
  | 2 => by decide
  | 3 => by decide
  | 4 => by decide
  | (n + 5) => List.Pairwise.nil

/-- Every valid base index is a canonical slot `0`–`3`. -/
theorem gearBases_lt_four : ∀ t i : Nat, i ∈ gearBases t → i < 4
  | 0, i, h => absurd h (List.not_mem_nil i)
  | 1, i, h => by
    simp [gearBases] at h
    omega
  | 2, i, h => by
    simp [gearBases] at h
    rcases h with h | h <;> omega
  | 3, i, h => by
    simp [gearBases] at h
    rcases h with h | h | h <;> omega
  | 4, i, h => by
    simp [gearBases] at h
    rcases h with h | h | h | h <;> omega
  | (n + 5), i, h => absurd h (List.not_mem_nil i)

/-- The scan misses iff no base in the list admits. -/
theorem findAdmit_eq_none (rot req : Nat) (code : List Nat) (l : List Nat)
    (h : ∀ i ∈ l, ¬ (calcVectorSum rot i = req ∧ code.getD i 2 = 0)) :
    findAdmit rot req code l = none := by
  induction l with
  | nil => rfl
  | cons a t ih =>
    unfold findAdmit
    rw [if_neg (h a (List.mem_cons_self a t))]
    exact ih (fun i hi => h i (List.mem_cons_of_mem a hi))

/-- On a strictly ascending list, the scan returns exactly the least
admitting index. -/
theorem findAdmit_eq_some (rot req : Nat) (code : List Nat) (l : List Nat) (b : Nat)
    (hsorted : List.Pairwise (· < ·) l)
    (hmem : b ∈ l) (hP : calcVectorSum rot b = req ∧ code.getD b 2 = 0)
    (hleast : ∀ j ∈ l, j < b → ¬ (calcVectorSum rot j = req ∧ code.getD j 2 = 0)) :
    findAdmit rot req code l = some b := by
  induction l with
  | nil => exact absurd hmem (List.not_mem_nil b)
  | cons a t ih =>
    rcases List.mem_cons.mp hmem with hba | hbt
    · subst hba
      unfold findAdmit
      rw [if_pos hP]
    · have hab : a < b := (List.pairwise_cons.mp hsorted).1 b hbt
      unfold findAdmit
      rw [if_neg (hleast a (List.mem_cons_self a t) hab)]
      exact ih (List.pairwise_cons.mp hsorted).2 hbt
        (fun j hj => hleast j (List.mem_cons_of_mem a hj))

/-- The admission predicate of §4.4: base `i` of the target gear exists,
points back at the arriving mouse, and is free. -/
def admitsB (tg : GearData) (req i : Nat) : Prop :=
  i ∈ gearBases tg.gtype ∧ calcVectorSum tg.rot i = req ∧ tg.bases.getD i 2 = 0

instance (tg : GearData) (req i : Nat) : Decidable (admitsB tg req i) := by
  unfold admitsB
  infer_instance

/-- `getCellFromCoords` succeeds exactly on in-range coordinates and
returns their `toNat` pair. -/
theorem getCellFromCoords_some (s : GameState) (a c : Int) (p : Nat × Nat)
    (h : getCellFromCoords s a c = some p) :
    1 ≤ a ∧ a ≤ (s.width : Int) ∧ 0 ≤ c ∧ c ≤ (s.height : Int) + 1 ∧
      p = (a.toNat, c.toNat) := by
  unfold getCellFromCoords at h
  split_ifs at h with h1 h2
  · simp only [Option.some.injEq] at h
    exact ⟨h1.1, h1.2, h2.1, h2.2, h.symm⟩

/-- C2 (confirmed): jump admission.  For an `InPlay` mouse whose one-step
target cell holds a gear (well-formed: base index `< 4`, four occupancy
digits), the jump-resolution body moves the mouse iff the target gear has
a valid base whose absolute direction `(rotation + base) mod 4` equals the
opposite of the mouse's output direction and whose occupancy digit is
empty; when it moves it lands on the lowest such base, its origin base is
freed, the destination base becomes occupied, and the score changes by
`SCORE_POINTS` of the output direction (`+10` North, `+5` West/East,
`-10` South); otherwise the mouse stays put. -/
theorem C2_jump_admission (s : GameState) (mid : Nat) (m : Mouse) (x y b : Nat)
    (g tg : GearData) (tx ty : Nat)
    (hm : lookupA s.mice mid = some m)
    (hst : m.status = MStatus.inPlay)
    (hpos : m.pos = MPos.cell x y)
    (hb : m.onBase = some b)
    (hg : lookupA s.board (x, y) = some (Cell.gear g))
    (hlen : g.bases.length = 4) (hb4 : b < 4)
    (hstep : getCellFromCoords s ((x : Int) + (directionDeltas (calcVectorSum g.rot b)).1)
      ((y : Int) + (directionDeltas (calcVectorSum g.rot b)).2) = some (tx, ty))
    (hty : ¬ s.height < ty)
    (htg : lookupA s.board (tx, ty) = some (Cell.gear tg)) :
    ((∀ i, ¬ admitsB tg ((calcVectorSum g.rot b + 2) % 4) i) → jumpOne s mid = Except.ok s) ∧
    (∀ tb, admitsB tg ((calcVectorSum g.rot b + 2) % 4) tb →
      (∀ j, j < tb → ¬ admitsB tg ((calcVectorSum g.rot b + 2) % 4) j) →
      jumpOne s mid = Except.ok { s with
        board := updateA (updateA s.board (x, y)
            (Cell.gear { g with bases := g.bases.set b 0 })) (tx, ty)
          (Cell.gear { tg with bases := tg.bases.set tb 1 })
        mice := updateA s.mice mid ⟨MPos.cell tx ty, some tb, MStatus.inPlay⟩
        scoreAccumulated := s.scoreAccumulated + scorePoints (calcVectorSum g.rot b) }) := by
  have hneq : ¬ ((x, y) = (tx, ty)) := by
    have hpt : calcVectorSum g.rot b < 4 := Nat.mod_lt _ (by decide)
    rcases getCellFromCoords_some s _ _ _ hstep with ⟨h1, h2, h3, h4, hp5⟩
    intro he
    injection he with hex hey
    subst hex
    subst hey
    injection hp5 with htx hty2
    revert h1 h2 h3 h4 htx hty2
    rcases hv : calcVectorSum g.rot b with _ | _ | _ | _ | n
    · simp only [directionDeltas]
      intro h1 h2 h3 h4 htx hty2
      omega
    · simp only [directionDeltas]
      intro h1 h2 h3 h4 htx hty2
      omega
    · simp only [directionDeltas]
      intro h1 h2 h3 h4 htx hty2
      omega
    · simp only [directionDeltas]
      intro h1 h2 h3 h4 htx hty2
      omega
    · rw [hv] at hpt
      omega
  constructor
  · intro hno
    have hfa : findAdmit tg.rot ((calcVectorSum g.rot b + 2) % 4) tg.bases
        (gearBases tg.gtype) = none :=
      findAdmit_eq_none _ _ _ _ (fun i hi hP => hno i ⟨hi, hP⟩)
    simp only [jumpOne, hm, hpos, hg, hb, hstep, if_neg hty, htg, hfa]
  · intro tb htb hleast
    have hfa : findAdmit tg.rot ((calcVectorSum g.rot b + 2) % 4) tg.bases
        (gearBases tg.gtype) = some tb :=
      findAdmit_eq_some _ _ _ _ tb (gearBases_sorted tg.gtype) htb.1
        ⟨htb.2.1, htb.2.2⟩ (fun j hj hlt hP => hleast j hlt ⟨hj, hP⟩)
    have hblen : b < g.bases.length := by omega
    have hlu : lookupA (updateA s.board (x, y)
        (Cell.gear { g with bases := g.bases.set b 0 })) (tx, ty) = some (Cell.gear tg) := by
      rw [lookupA_updateA_ne _ _ _ _ hneq]
      exact htg
    simp only [jumpOne, hm, hpos, hg, hb, hstep, if_neg hty, htg, hfa, if_pos hblen, hlu, hst]

/-- A jump scenario: a `G1` mouse-carrying gear at `P11` (rotation 3, so
base 0 points East) next to an all-free `G4` at `P21` (rotation 0, so base
1 points West, back at the arriving mouse). -/
def exC2 : GameState :=
  mkState 3 3
    [((1, 1), Cell.gear ⟨1, (1, 1), Topo.R, 3, [1, 2, 2, 2]⟩),
     ((2, 1), Cell.gear ⟨4, (2, 1), Topo.L, 0, [0, 0, 0, 0]⟩)]
    [(1, 0), (2, 0), (3, 0), (4, 0)]
    [(1, ⟨MPos.cell 1 1, some 0, MStatus.inPlay⟩)]

/-- C2 witness: the jump-admission theorem evaluated on `exC2`: the mouse
jumps East onto base 1 of the `G4`, freeing its origin base and scoring
`+5`. -/
theorem C2_jump_admission_witness :
    jumpOne exC2 1 = Except.ok { exC2 with
      board := updateA (updateA exC2.board (1, 1)
          (Cell.gear ⟨1, (1, 1), Topo.R, 3, [1, 2, 2, 2].set 0 0⟩)) (2, 1)
        (Cell.gear ⟨4, (2, 1), Topo.L, 0, [0, 0, 0, 0].set 1 1⟩)
      mice := updateA exC2.mice 1 ⟨MPos.cell 2 1, some 1, MStatus.inPlay⟩
      scoreAccumulated := exC2.scoreAccumulated + scorePoints (calcVectorSum 3 0) } :=
  (C2_jump_admission exC2 1 ⟨MPos.cell 1 1, some 0, MStatus.inPlay⟩ 1 1 0
    ⟨1, (1, 1), Topo.R, 3, [1, 2, 2, 2]⟩ ⟨4, (2, 1), Topo.L, 0, [0, 0, 0, 0]⟩ 2 1
    (by rfl) (by rfl) (by rfl) (by rfl) (by rfl) (by rfl) (by decide)
    (by rfl) (by decide) (by rfl)).2 1 (by decide) (by decide)

/-! ## C10: mouse resolution order -/

/-- The mouse ids of a fresh session, in insertion order: `1, …, width`
(one per starting column). -/
theorem reset_mice_fst (lid : String) :
    ((reset lid).mice).map Prod.fst = (List.range (reset lid).width).map (fun i => i + 1) := by
  simp [reset, List.map_map]

/-- Two mice riding the same base of the `exC2` jump gear: both would
jump East onto the unique admitting base 1 of the `G4` at `P21`. -/
def exComp : GameState :=
  mkState 3 3
    [((1, 1), Cell.gear ⟨1, (1, 1), Topo.R, 3, [1, 2, 2, 2]⟩),
     ((2, 1), Cell.gear ⟨4, (2, 1), Topo.L, 0, [0, 0, 0, 0]⟩)]
    [(1, 0), (2, 0), (3, 0), (4, 0)]
    [(1, ⟨MPos.cell 1 1, some 0, MStatus.inPlay⟩),
     (2, ⟨MPos.cell 1 1, some 0, MStatus.inPlay⟩)]

/-- C10 (confirmed): entry and jump resolution process mice in ascending
creation order — `reset` registers `M1, …, Mw` (one per starting column)
in ascending insertion order, and both passes fold over that order — so
when two mice could jump onto the same empty base in one pass, the
lower-numbered mouse takes it and the other stays where it was (in
`exComp`, `M1` wins base 1 of `P21` and scores the `+5`; `M2` is left in
place). -/
theorem C10_mouse_order :
    (∀ lid : String,
      ((reset lid).mice).map Prod.fst = (List.range (reset lid).width).map (fun i => i + 1)) ∧
    (∀ lid : String, List.Pairwise (· < ·) (((reset lid).mice).map Prod.fst)) ∧
    (∃ s', checkJumps exComp = Except.ok s' ∧
      lookupA s'.mice 1 = some ⟨MPos.cell 2 1, some 1, MStatus.inPlay⟩ ∧
      lookupA s'.mice 2 = some ⟨MPos.cell 1 1, some 0, MStatus.inPlay⟩ ∧
      s'.scoreAccumulated = 5) := by
  refine ⟨reset_mice_fst, ?_, ?_⟩
  · intro lid
    rw [reset_mice_fst]
    exact List.pairwise_map.mpr ((List.pairwise_lt_range _).imp (by omega))
  · exact ⟨_, rfl, by rfl, by rfl, by rfl⟩

/-! ## C3: entropy exactness

The entropy block fires exactly when a placement empties the inventory.
The lemmas below track the only two fields the firing condition reads —
the inventory sum and the one-shot flag — through every stage of a move. -/

/-- The frame the entropy condition depends on: neither the inventory nor
the one-shot flag changed. -/
def InvFrame (s s' : GameState) : Prop :=
  s'.inventory = s.inventory ∧ s'.entropyTriggered = s.entropyTriggered

theorem invFrame_refl (s : GameState) : InvFrame s s := ⟨rfl, rfl⟩

theorem invFrame_trans {a b c : GameState} (h1 : InvFrame a b) (h2 : InvFrame b c) :
    InvFrame a c := ⟨h2.1.trans h1.1, h2.2.trans h1.2⟩

/-- A physics pass whose every step keeps a reflexive-transitive frame
keeps the frame. -/
theorem foldExcept_frame {α : Type} (f : GameState → α → Except String GameState)
    (P : GameState → GameState → Prop)
    (hrefl : ∀ s, P s s) (htrans : ∀ {a b c}, P a b → P b c → P a c)
    (hf : ∀ s a s', f s a = Except.ok s' → P s s') :
    ∀ (l : List α) (s s' : GameState), foldExcept f s l = Except.ok s' → P s s' := by
  intro l
  induction l with
  | nil =>
    intro s s' h
    unfold foldExcept at h
    injection h with h
    subst h
    exact hrefl s
  | cons a t ih =>
    intro s s' h
    unfold foldExcept at h
    cases hf1 : f s a with
    | error e => rw [hf1] at h; exact Except.noConfusion h
    | ok s1 => rw [hf1] at h; exact htrans (hf s a s1 hf1) (ih s1 s' h)

theorem entryOne_frame (s : GameState) (mid : Nat) (s' : GameState)
    (h : entryOne s mid = Except.ok s') : InvFrame s s' := by
  unfold entryOne at h
  repeat' split at h
  all_goals first
    | (injection h with h1
       subst h1
       exact ⟨rfl, rfl⟩)
    | exact Except.noConfusion h

theorem jumpOne_frame (s : GameState) (mid : Nat) (s' : GameState)
    (h : jumpOne s mid = Except.ok s') : InvFrame s s' := by
  unfold jumpOne at h
  dsimp only at h
  repeat' split at h
  all_goals first
    | (injection h with h1
       subst h1
       exact ⟨rfl, rfl⟩)
    | exact Except.noConfusion h

theorem checkEntries_frame (s s' : GameState) (h : checkEntries s = Except.ok s') :
    InvFrame s s' :=
  foldExcept_frame entryOne InvFrame invFrame_refl (fun h1 h2 => invFrame_trans h1 h2)
    entryOne_frame _ s s' h

theorem checkJumps_frame (s s' : GameState) (h : checkJumps s = Except.ok s') :
    InvFrame s s' :=
  foldExcept_frame jumpOne InvFrame invFrame_refl (fun h1 h2 => invFrame_trans h1 h2)
    jumpOne_frame _ s s' h

theorem applyRotation_frame (s : GameState) (k : Nat × Nat) (r : RotStr) :
    InvFrame s (applyRotation s k r) := by
  unfold applyRotation
  split
  · exact ⟨rfl, rfl⟩
  · exact ⟨rfl, rfl⟩

theorem triggerEntropy_frame (s : GameState) (er : EntropyRand) :
    InvFrame s (triggerEntropy s er).1 := by
  unfold triggerEntropy entropyApply
  split
  · exact ⟨rfl, rfl⟩
  · exact ⟨rfl, rfl⟩

theorem preMoveStep_frame (s : GameState) (pm : List Char) (s' : GameState)
    (h : preMoveStep s pm = Except.ok s') : InvFrame s s' := by
  unfold preMoveStep at h
  repeat' split at h
  all_goals first
    | (injection h with h1
       subst h1
       exact ⟨rfl, rfl⟩)
    | exact Except.noConfusion h

theorem rotationMove_frame (s : GameState) (pre : Option (List Char)) (main : List Char)
    (s' : GameState) (h : rotationMove s pre main = Except.ok s') : InvFrame s s' := by
  unfold rotationMove at h
  cases hm : matchRotMain main with
  | none =>
    rw [hm] at h
    exact Except.noConfusion h
  | some dr =>
    rw [hm] at h
    obtain ⟨ds, r⟩ := dr
    match ds, h with
    | [], h => exact Except.noConfusion h
    | [x], h => exact Except.noConfusion h
    | x :: y :: z :: rest, h => exact Except.noConfusion h
    | [x, y], h =>
      dsimp only at h
      cases hc : lookupA s.board (x, y) with
      | none =>
        rw [hc] at h
        exact Except.noConfusion h
      | some c =>
        rw [hc] at h
        cases c with
        | obstacle => exact Except.noConfusion h
        | empty t => exact Except.noConfusion h
        | gear g =>
          cases pre with
          | none =>
            simp only [bind, Except.bind] at h
            injection h with h1
            subst h1
            exact applyRotation_frame s (x, y) r
          | some pm =>
            cases hps : preMoveStep s pm with
            | error e =>
              simp only [hps, bind, Except.bind] at h
              exact Except.noConfusion h
            | ok s1 =>
              simp only [hps, bind, Except.bind] at h
              injection h with h1
              subst h1
              exact invFrame_trans (preMoveStep_frame s pm s1 hps)
                (applyRotation_frame s1 (x, y) r)

/-- A placement with available inventory decrements the inventory sum by
exactly one and leaves the one-shot flag alone. -/
theorem placedState_invSum (s : GameState) (gd x y : Nat) (topo : Topo) (bInit : Nat)
    (hv : ¬ (lookupA s.inventory gd).getD 0 < 1) :
    invSum (placedState s gd x y topo bInit) + 1 = invSum s ∧
      (placedState s gd x y topo bInit).entropyTriggered = s.entropyTriggered := by
  refine ⟨?_, rfl⟩
  cases hl : lookupA s.inventory gd with
  | none =>
    rw [hl] at hv
    exact absurd (by decide) hv
  | some v =>
    rw [hl] at hv
    simp only [Option.getD_some] at hv
    have hs := sum_updateA s.inventory gd (v - 1) v hl
    show ((updateA s.inventory gd ((lookupA s.inventory gd).getD 0 - 1)).map Prod.snd).sum + 1 =
      (s.inventory.map Prod.snd).sum
    rw [hl]
    simp only [Option.getD_some]
    omega

theorem placeGear_frame (s : GameState) (gd x y : Nat) (topo : Topo) (bInit : Nat)
    (rot : RotStr) (s' : GameState)
    (hv : ¬ (lookupA s.inventory gd).getD 0 < 1)
    (h : placeGear s gd x y topo bInit rot = Except.ok s') :
    invSum s' + 1 = invSum s ∧ s'.entropyTriggered = s.entropyTriggered := by
  unfold placeGear at h
  cases he : checkEntries (placedState s gd x y topo bInit) with
  | error e =>
    rw [he] at h
    exact Except.noConfusion h
  | ok s2 =>
    rw [he] at h
    simp only [bind, Except.bind] at h
    injection h with h1
    subst h1
    have hf := invFrame_trans (checkEntries_frame _ _ he) (applyRotation_frame s2 (x, y) rot)
    have hp := placedState_invSum s gd x y topo bInit hv
    constructor
    · show invSum (applyRotation s2 (x, y) rot) + 1 = invSum s
      unfold invSum
      rw [hf.1]
      exact hp.1
    · rw [hf.2]
      exact hp.2

/-- A successful Placement-Phase move decrements the inventory sum by one
and leaves the one-shot flag alone. -/
theorem placementMove_frame (s : GameState) (main : List Char) (s' : GameState)
    (h : placementMove s main = Except.ok s') :
    invSum s' + 1 = invSum s ∧ s'.entropyTriggered = s.entropyTriggered := by
  unfold placementMove at h
  cases hm : matchPlacement main with
  | none =>
    rw [hm] at h
    exact Except.noConfusion h
  | some q =>
    rw [hm] at h
    obtain ⟨gd, ds, bInit, rot⟩ := q
    dsimp only at h
    by_cases hb3 : 3 < bInit
    · rw [if_pos hb3] at h
      exact Except.noConfusion h
    · rw [if_neg hb3] at h
      by_cases hv : (lookupA s.inventory gd).getD 0 < 1
      · rw [if_pos hv] at h
        exact Except.noConfusion h
      · rw [if_neg hv] at h
        match ds, h with
        | [], h => exact Except.noConfusion h
        | [x], h => exact Except.noConfusion h
        | x :: y :: z :: rest, h => exact Except.noConfusion h
        | [x, y], h =>
          dsimp only at h
          cases hc : lookupA s.board (x, y) with
          | none =>
            rw [hc] at h
            exact Except.noConfusion h
          | some c =>
            rw [hc] at h
            cases c with
            | obstacle => exact Except.noConfusion h
            | gear g => exact Except.noConfusion h
            | empty topo =>
              dsimp only at h
              by_cases hfirst : invSum s = levelInitialInvSum s.levelId
              · rw [if_pos hfirst] at h
                by_cases hy : y ≠ 1
                · rw [if_pos hy] at h
                  exact Except.noConfusion h
                · rw [if_neg hy] at h
                  exact placeGear_frame s gd x y topo bInit rot s' hv h
              · rw [if_neg hfirst] at h
                by_cases hadj : ¬ checkAdjacency s x y = true
                · rw [if_pos hadj] at h
                  exact Except.noConfusion h
                · rw [if_neg hadj] at h
                  exact placeGear_frame s gd x y topo bInit rot s' hv h

/-- The entry/jump tail of the `try` block keeps the inventory/flag frame
and passes the entropy log through. -/
theorem entriesJumps_ok (t : GameState) (msg : String) (p : GameState × String)
    (h : (checkEntries t >>= fun s2 => checkJumps s2 >>= fun s3 => Except.ok (s3, msg)) =
      Except.ok p) :
    InvFrame t p.1 ∧ p.2 = msg := by
  cases he : checkEntries t with
  | error e =>
    rw [he] at h
    exact Except.noConfusion h
  | ok s2 =>
    rw [he] at h
    simp only [bind, Except.bind] at h
    cases hj : checkJumps s2 with
    | error e =>
      rw [hj] at h
      exact Except.noConfusion h
    | ok s3 =>
      rw [hj] at h
      injection h with h1
      subst h1
      exact ⟨invFrame_trans (checkEntries_frame _ _ he) (checkJumps_frame _ _ hj), rfl⟩

/-- What `afterPhase` does to the inventory sum and the one-shot flag:
the sum is passed through, and the flag is set exactly when the phase was
a placement that emptied the inventory with the flag still clear. -/
theorem afterPhase_step (isP : Bool) (er : EntropyRand) (s1 : GameState)
    (p : GameState × String) (h : afterPhase isP er s1 = Except.ok p) :
    invSum p.1 = invSum s1 ∧
      (p.1.entropyTriggered = true ↔
        (s1.entropyTriggered = true ∨
          (isP = true ∧ invSum s1 = 0 ∧ s1.entropyTriggered = false))) := by
  unfold afterPhase at h
  by_cases hfire : isP = true ∧ invSum s1 = 0 ∧ s1.entropyTriggered = false
  · rw [if_pos hfire] at h
    dsimp only at h
    have he := entriesJumps_ok _ _ _ h
    have hte := triggerEntropy_frame s1 er
    constructor
    · show (p.1.inventory.map Prod.snd).sum = invSum s1
      rw [he.1.1]
      show ((triggerEntropy s1 er).1.inventory.map Prod.snd).sum = invSum s1
      rw [hte.1]
      rfl
    · rw [he.1.2]
      simp [hfire]
  · rw [if_neg hfire] at h
    dsimp only at h
    have he := entriesJumps_ok _ _ _ h
    constructor
    · show (p.1.inventory.map Prod.snd).sum = invSum s1
      rw [he.1.1]
      rfl
    · rw [he.1.2]
      simp [hfire]

/-- One `process_move` preserves the session invariant "flag set ⟹
inventory empty", never increases the inventory sum, and sets the flag on
exactly the move whose processing brings the inventory sum from positive
to zero. -/
theorem processMove_entropy_step (s : GameState) (cmd : String) (er : EntropyRand)
    (hinv : s.entropyTriggered = true → invSum s = 0) :
    invSum (processMove s cmd er).state ≤ invSum s ∧
    (((processMove s cmd er).state.entropyTriggered = true ∧ s.entropyTriggered = false) ↔
      (0 < invSum s ∧ invSum (processMove s cmd er).state = 0)) ∧
    ((processMove s cmd er).state.entropyTriggered = true →
      invSum (processMove s cmd er).state = 0) := by
  by_cases hov : s.isGameOver = true
  · have hpm : processMove s cmd er = { success := false, state := s, msg := "Game ended." } := by
      unfold processMove
      rw [hov]
      simp
    rw [hpm]
    refine ⟨le_refl _, ?_, hinv⟩
    constructor
    · rintro ⟨h1, h2⟩
      rw [h1] at h2
      exact absurd h2 (by simp)
    · rintro ⟨h1, h2⟩
      have h2' : invSum s = 0 := h2
      exact absurd h2' (by omega)
  · have hov' : s.isGameOver = false := by
      cases hq : s.isGameOver
      · rfl
      · exact absurd hq hov
    cases ht : tryMove s (decide (0 < invSum s))
        (if 1 < (splitSemis cmd.toList).length then some (stripWs ((splitSemis cmd.toList).headD []))
         else none)
        (stripWs ((splitSemis cmd.toList).getLastD [])) er with
    | error e =>
      rw [processMove_eq_error s cmd er e hov' ht]
      have hst := updateMetrics_stable { s with
        history := s.history ++ ["J" ++ toString (s.movesCount + 1) ++ ": [ERROR] " ++ cmd]
        movesCount := s.movesCount + 1 }
      have hsum : invSum (processMove s cmd er).state = invSum s := by
        rw [processMove_eq_error s cmd er e hov' ht]
        show ((updateMetrics _).inventory.map Prod.snd).sum = invSum s
        rw [hst.2.2.2.1]
        rfl
      rw [processMove_eq_error s cmd er e hov' ht] at hsum
      have hflag : (updateMetrics { s with
          history := s.history ++ ["J" ++ toString (s.movesCount + 1) ++ ": [ERROR] " ++ cmd]
          movesCount := s.movesCount + 1 }).entropyTriggered = s.entropyTriggered :=
        hst.2.2.2.2.1
      refine ⟨le_of_eq hsum, ?_, ?_⟩
      · rw [hflag, hsum]
        constructor
        · rintro ⟨h1, h2⟩
          rw [h1] at h2
          exact absurd h2 (by simp)
        · rintro ⟨h1, h2⟩
          exact absurd h2 (by omega)
      · rw [hflag, hsum]
        exact hinv
    | ok p =>
      rw [processMove_eq_ok s cmd er p hov' ht]
      have hst := updateMetrics_stable { p.1 with
        history := p.1.history ++ ["J" ++ toString (p.1.movesCount + 1) ++ ": " ++ cmd]
        movesCount := p.1.movesCount + 1 }
      have hsum : (updateMetrics { p.1 with
          history := p.1.history ++ ["J" ++ toString (p.1.movesCount + 1) ++ ": " ++ cmd]
          movesCount := p.1.movesCount + 1 }).inventory = p.1.inventory := hst.2.2.2.1
      have hflag : (updateMetrics { p.1 with
          history := p.1.history ++ ["J" ++ toString (p.1.movesCount + 1) ++ ": " ++ cmd]
          movesCount := p.1.movesCount + 1 }).entropyTriggered = p.1.entropyTriggered :=
        hst.2.2.2.2.1
      have hsum' : invSum (updateMetrics { p.1 with
          history := p.1.history ++ ["J" ++ toString (p.1.movesCount + 1) ++ ": " ++ cmd]
          movesCount := p.1.movesCount + 1 }) = invSum p.1 := by
        show ((updateMetrics _).inventory.map Prod.snd).sum = invSum p.1
        rw [hsum]
        rfl
      unfold tryMove at ht
      by_cases hpl : 0 < invSum s
      · rw [if_pos (by simp [hpl] : decide (0 < invSum s) = true)] at ht
        cases hq : placementMove s (stripWs ((splitSemis cmd.toList).getLastD [])) with
        | error e =>
          rw [hq] at ht
          exact Except.noConfusion ht
        | ok s1 =>
          rw [hq] at ht
          simp only [bind, Except.bind] at ht
          have hps := placementMove_frame s _ s1 hq
          have hap := afterPhase_step true er s1 p ht
          have hflag1 : s.entropyTriggered = false := by
            cases hq2 : s.entropyTriggered
            · rfl
            · exact absurd (hinv hq2) (by omega)
          refine ⟨?_, ?_, ?_⟩
          · rw [hsum', hap.1]
            omega
          · rw [hflag, hsum', hap.1]
            rw [hps.2, hflag1] at hap
            constructor
            · rintro ⟨h1, h2⟩
              rcases hap.2.mp h1 with h3 | h3
              · exact absurd h3 (by simp)
              · exact ⟨hpl, h3.2.1⟩
            · rintro ⟨h1, h2⟩
              exact ⟨hap.2.mpr (Or.inr ⟨rfl, h2, rfl⟩), hflag1⟩
          · rw [hflag, hsum', hap.1]
            intro h1
            rw [hps.2, hflag1] at hap
            rcases hap.2.mp h1 with h3 | h3
            · exact absurd h3 (by simp)
            · exact h3.2.1
      · rw [if_neg (by simp [hpl] : ¬ decide (0 < invSum s) = true)] at ht
        cases hq : rotationMove s
            (if 1 < (splitSemis cmd.toList).length then some (stripWs ((splitSemis cmd.toList).headD []))
             else none)
            (stripWs ((splitSemis cmd.toList).getLastD [])) with
        | error e =>
          rw [hq] at ht
          exact Except.noConfusion ht
        | ok s1 =>
          rw [hq] at ht
          simp only [bind, Except.bind] at ht
          have hrf := rotationMove_frame s _ _ s1 hq
          have hap := afterPhase_step false er s1 p ht
          have hs1 : invSum s1 = invSum s := by
            show (s1.inventory.map Prod.snd).sum = invSum s
            rw [hrf.1]
            rfl
          refine ⟨?_, ?_, ?_⟩
          · rw [hsum', hap.1, hs1]
          · rw [hflag, hsum', hap.1, hs1]
            constructor
            · rintro ⟨h1, h2⟩
              rcases hap.2.mp h1 with h3 | h3
              · rw [hrf.2] at h3
                rw [h3] at h2
                exact absurd h2 (by simp)
              · exact absurd h3.1 (by simp)
            · rintro ⟨h1, h2⟩
              exact absurd h1 hpl
          · rw [hflag, hsum', hap.1, hs1]
            intro h1
            rcases hap.2.mp h1 with h3 | h3
            · rw [hrf.2] at h3
              exact hinv h3
            · exact absurd h3.1 (by simp)

/-- A fresh session has the one-shot flag clear. -/
theorem reset_entropy_flag (lid : String) : (reset lid).entropyTriggered = false := rfl

/-- The session invariant: the one-shot flag is only ever set once the
inventory is exhausted (and the inventory sum never grows back). -/
theorem session_flag_inv (lid : String) (moves : List (String × EntropyRand)) :
    (runSession lid moves).entropyTriggered = true → invSum (runSession lid moves) = 0 := by
  have hgen : ∀ (l : List (String × EntropyRand)) (s : GameState),
      (s.entropyTriggered = true → invSum s = 0) →
      ((l.foldl stepSession s).entropyTriggered = true →
        invSum (l.foldl stepSession s) = 0) := by
    intro l
    induction l with
    | nil => intro s hs; exact hs
    | cons a t ih =>
      intro s hs
      simp only [List.foldl_cons]
      exact ih (stepSession s a) ((processMove_entropy_step s a.1 a.2 hs).2.2)
  exact hgen moves (reset lid) (fun h => absurd h (by rw [reset_entropy_flag]; simp))

/-- C3 (confirmed): entropy exactness.  In every session (any level, any
move sequence), the entropy event fires on a move — observable as the
one-shot flag transitioning from clear to set — exactly when that move's
processing brings the inventory sum from positive to zero (a check on
inventory, not on phase timing); and the inventory sum never increases, so
once it has reached zero no later move can satisfy the firing condition
again: entropy fires at most once per session. -/
theorem C3_entropy_exactness (lid : String) (moves : List (String × EntropyRand))
    (cmd : String) (er : EntropyRand) :
    (((stepSession (runSession lid moves) (cmd, er)).entropyTriggered = true ∧
        (runSession lid moves).entropyTriggered = false) ↔
      (0 < invSum (runSession lid moves) ∧
        invSum (stepSession (runSession lid moves) (cmd, er)) = 0)) ∧
    invSum (stepSession (runSession lid moves) (cmd, er)) ≤ invSum (runSession lid moves) := by
  have hstep := processMove_entropy_step (runSession lid moves) cmd er
    (session_flag_inv lid moves)
  exact ⟨hstep.2.1, hstep.1⟩

/-! ## C4: Rotation-Phase grammar

The success half of the grammar claim needs the physics passes to
complete, which holds on well-formed states (every state reachable from
`reset` is well-formed; the source would raise `TypeError`/`IndexError`
on the excluded shapes). -/

/-- A gear string always carries a four-digit occupancy code. -/
def gearOKb : Cell → Bool
  | Cell.gear g => decide (g.bases.length = 4)
  | _ => true

/-- The cell under a mouse position is a gear or off the board (never an
on-board obstacle/empty cell). -/
def cellGearB (board : List ((Nat × Nat) × Cell)) : MPos → Bool
  | MPos.cell x y =>
    match lookupA board (x, y) with
    | some (Cell.gear _) => true
    | some _ => false
    | none => true
  | MPos.out => true

/-- An `on_base` value naming a canonical slot. -/
def baseB : Option Nat → Bool
  | some b => decide (b < 4)
  | none => false

/-- Per-mouse well-formedness: a waiting mouse sits in the bay (a cell
position), an in-play mouse has a canonical base index and sits on a gear
(or off-board coordinates). -/
def mouseOKb (board : List ((Nat × Nat) × Cell)) (m : Mouse) : Bool :=
  match m.status with
  | MStatus.waiting => decide (m.pos ≠ MPos.out)
  | MStatus.inPlay => baseB m.onBase && cellGearB board m.pos
  | MStatus.escaped => true

/-- State well-formedness: all gear strings have four occupancy digits,
all mice are well-formed, and mouse ids are unique. -/
def WF (s : GameState) : Prop :=
  (∀ p ∈ s.board, gearOKb p.2 = true) ∧
  (∀ p ∈ s.mice, mouseOKb s.board p.2 = true) ∧
  (s.mice.map Prod.fst).Nodup

/-- `updateA` on a missing key is the identity. -/
theorem updateA_not_mem {α β : Type} [DecidableEq α] (l : List (α × β)) (k : α) (v : β)
    (h : lookupA l k = none) : updateA l k v = l := by
  induction l with
  | nil => rfl
  | cons hd t ih =>
    by_cases hk : hd.1 = k
    · simp [lookupA, hk] at h
    · simp only [lookupA, hk, if_false] at h
      simp [updateA, hk, ih h]

/-- `updateA` on a present key overwrites the first binding. -/
theorem lookupA_updateA_isSome {α β : Type} [DecidableEq α] (l : List (α × β)) (k : α)
    (v : β) (h : (lookupA l k).isSome) : lookupA (updateA l k v) k = some v := by
  cases hl : lookupA l k with
  | none => rw [hl] at h; exact absurd h (by simp)
  | some v0 => exact lookupA_updateA_self l k v v0 hl

/-- Replacing a cell by a gear keeps every mouse's position on a gear. -/
theorem cellGearB_update_gear (board : List ((Nat × Nat) × Cell)) (k : Nat × Nat)
    (gnew : GearData) (pos : MPos) (h : cellGearB board pos = true) :
    cellGearB (updateA board k (Cell.gear gnew)) pos = true := by
  cases pos with
  | out => rfl
  | cell x y =>
    simp only [cellGearB] at h ⊢
    by_cases hk : (x, y) = k
    · subst hk
      cases hl : lookupA board (x, y) with
      | none => rw [updateA_not_mem board (x, y) _ hl, hl]
      | some c => rw [lookupA_updateA_isSome board (x, y) _ (by rw [hl]; rfl)]
    · rw [lookupA_updateA_ne board k (x, y) _ (fun he => hk he.symm)]
      exact h

/-- Replacing a cell by a gear keeps every mouse well-formed. -/
theorem mouseOKb_update_gear (board : List ((Nat × Nat) × Cell)) (k : Nat × Nat)
    (gnew : GearData) (m : Mouse) (h : mouseOKb board m = true) :
    mouseOKb (updateA board k (Cell.gear gnew)) m = true := by
  rcases m with ⟨pos, ob, st⟩
  cases st with
  | waiting => exact h
  | escaped => exact h
  | inPlay =>
    simp only [mouseOKb] at h ⊢
    rw [Bool.and_eq_true] at h ⊢
    exact ⟨h.1, cellGearB_update_gear board k gnew pos h.2⟩

/-- The rotation cascade preserves well-formedness: it maps gears to
gears with the same occupancy code. -/

theorem WF_applyRotation (s : GameState) (k : Nat × Nat) (r : RotStr) (hs : WF s) :
    WF (applyRotation s k r) := by
  unfold applyRotation
  cases hl : lookupA s.board k with
  | none => exact hs
  | some c =>
    cases c with
    | obstacle => exact hs
    | empty t => exact hs
    | gear dg =>
      refine ⟨?_, ?_, hs.2.2⟩
      · intro p hp
        rcases List.mem_map.mp hp with ⟨q, hq, hqe⟩
        rw [← hqe]
        show gearOKb (rotCell dg.topo r q.2) = true
        have hg := hs.1 q hq
        cases hc : q.2 with
        | obstacle => rw [hc] at hg; exact hg
        | empty t => rw [hc] at hg; exact hg
        | gear g =>
          rw [hc] at hg
          rw [rotCell_gear]
          simpa [gearOKb] using hg
      · intro p hp
        have hm := hs.2.1 p hp
        rcases hp2 : p.2 with ⟨pos, ob, st⟩
        rw [hp2] at hm
        cases st with
        | waiting => exact hm
        | escaped => exact hm
        | inPlay =>
          simp only [mouseOKb] at hm ⊢
          rw [Bool.and_eq_true] at hm ⊢
          refine ⟨hm.1, ?_⟩
          cases pos with
          | out => rfl
          | cell x y =>
            simp only [cellGearB] at hm ⊢
            rw [lookupA_map_value]
            cases hl2 : lookupA s.board (x, y) with
            | none => rfl
            | some c2 =>
              rw [hl2] at hm
              cases c2 with
              | obstacle => exact absurd hm (by simp)
              | empty t => exact absurd hm (by simp)
              | gear g2 => simp [Option.map, rotCell_gear]

/-- Writing a four-digit gear keeps every board cell's gear string
well-formed. -/
theorem gearsOKb_update (board : List ((Nat × Nat) × Cell)) (k : Nat × Nat)
    (gnew : GearData) (h : ∀ p ∈ board, gearOKb p.2 = true) (hlen : gnew.bases.length = 4) :
    ∀ p ∈ updateA board k (Cell.gear gnew), gearOKb p.2 = true := by
  intro p hp
  rcases mem_updateA board k (Cell.gear gnew) p hp with hm | hm
  · exact h p hm
  · rw [hm]
    simpa [gearOKb] using hlen

/-- Writing a gear keeps every mouse in a list well-formed. -/
theorem miceOKb_update_board (board : List ((Nat × Nat) × Cell)) (k : Nat × Nat)
    (gnew : GearData) (mice : List (Nat × Mouse))
    (h : ∀ p ∈ mice, mouseOKb board p.2 = true) :
    ∀ p ∈ mice, mouseOKb (updateA board k (Cell.gear gnew)) p.2 = true :=
  fun p hp => mouseOKb_update_gear board k gnew p.2 (h p hp)

/-- Replacing one mouse by a well-formed one keeps the registry
well-formed. -/
theorem miceOKb_update_mouse (board : List ((Nat × Nat) × Cell))
    (mice : List (Nat × Mouse)) (mid : Nat) (mnew : Mouse)
    (h : ∀ p ∈ mice, mouseOKb board p.2 = true) (hnew : mouseOKb board mnew = true) :
    ∀ p ∈ updateA mice mid mnew, mouseOKb board p.2 = true := by
  intro p hp
  rcases mem_updateA mice mid mnew p hp with hm | hm
  · exact h p hm
  · rw [hm]
    exact hnew

/-- A successful scan hit names a base from the scanned list. -/
theorem findAdmit_mem (rot req : Nat) (code : List Nat) (l : List Nat) (b : Nat)
    (h : findAdmit rot req code l = some b) : b ∈ l := by
  induction l with
  | nil => exact Option.noConfusion h
  | cons a t ih =>
    unfold findAdmit at h
    split at h
    · injection h with h1
      subst h1
      exact List.mem_cons_self a t
    · exact List.mem_cons_of_mem a (ih h)

/-- On a well-formed state the entry body never raises and preserves
well-formedness. -/
theorem entryOne_wf (s : GameState) (mid : Nat) (hs : WF s) :
    ∃ s', entryOne s mid = Except.ok s' ∧ WF s' := by
  unfold entryOne
  cases hm : lookupA s.mice mid with
  | none => exact ⟨s, rfl, hs⟩
  | some m =>
    dsimp only
    have hmo : mouseOKb s.board m = true := hs.2.1 (mid, m) (lookupA_mem s.mice mid m hm)
    by_cases hw : m.status = MStatus.waiting
    · rw [if_pos hw]
      have hpos : m.pos ≠ MPos.out := by
        unfold mouseOKb at hmo
        rw [hw] at hmo
        simpa using hmo
      cases hp : m.pos with
      | out => exact absurd hp hpos
      | cell x y =>
        dsimp only
        cases hb : lookupA s.board (x, 1) with
        | none => exact ⟨s, rfl, hs⟩
        | some c =>
          cases c with
          | obstacle => exact ⟨s, rfl, hs⟩
          | empty t => exact ⟨s, rfl, hs⟩
          | gear g =>
            dsimp only
            cases hf : findAdmit g.rot 2 g.bases (gearBases g.gtype) with
            | none => exact ⟨s, rfl, hs⟩
            | some b =>
              have hlen : g.bases.length = 4 := by
                have := hs.1 ((x, 1), Cell.gear g) (lookupA_mem s.board (x, 1) _ hb)
                simpa [gearOKb] using this
              have hb4 : b < 4 :=
                gearBases_lt_four g.gtype b (findAdmit_mem g.rot 2 g.bases _ b hf)
              refine ⟨_, rfl, ?_, ?_, ?_⟩
              · exact gearsOKb_update s.board (x, 1) _ hs.1 (by
                  simpa [List.length_set] using hlen)
              · refine miceOKb_update_mouse _ s.mice mid _
                  (miceOKb_update_board s.board (x, 1) _ s.mice hs.2.1) ?_
                unfold mouseOKb
                dsimp only
                rw [Bool.and_eq_true]
                constructor
                · simpa [baseB] using hb4
                · simp only [cellGearB]
                  rw [lookupA_updateA_isSome s.board (x, 1) _ (by rw [hb]; rfl)]
              · show ((updateA s.mice mid _).map Prod.fst).Nodup
                rw [map_fst_updateA]
                exact hs.2.2
    · rw [if_neg hw]
      exact ⟨s, rfl, hs⟩

/-- A fold of WF-preserving, non-raising steps is itself WF-preserving
and non-raising. -/
theorem foldExcept_wf {α : Type} (f : GameState → α → Except String GameState)
    (Q : GameState → Prop)
    (hf : ∀ s a, Q s → ∃ s', f s a = Except.ok s' ∧ Q s') :
    ∀ (l : List α) (s : GameState), Q s →
      ∃ s', foldExcept f s l = Except.ok s' ∧ Q s' := by
  intro l
  induction l with
  | nil => exact fun s hQ => ⟨s, rfl, hQ⟩
  | cons a t ih =>
    intro s hQ
    rcases hf s a hQ with ⟨s1, h1, hQ1⟩
    rcases ih s1 hQ1 with ⟨s2, h2, hQ2⟩
    refine ⟨s2, ?_, hQ2⟩
    unfold foldExcept
    rw [h1]
    exact h2

/-- On a well-formed state the entry pass never raises and preserves
well-formedness. -/
theorem checkEntries_wf (s : GameState) (hs : WF s) :
    ∃ s', checkEntries s = Except.ok s' ∧ WF s' :=
  foldExcept_wf entryOne WF (fun s a hQ => entryOne_wf s a hQ) (s.mice.map Prod.fst) s hs

/-- On a well-formed state the jump body, run on a mouse that is
`IN_PLAY`, never raises, preserves well-formedness, and does not touch
the other mice's registry entries. -/
theorem jumpOne_wf (s : GameState) (mid : Nat) (hs : WF s)
    (hst : ∀ m, lookupA s.mice mid = some m → m.status = MStatus.inPlay) :
    ∃ s', jumpOne s mid = Except.ok s' ∧ WF s' ∧
      (∀ j, j ≠ mid → lookupA s'.mice j = lookupA s.mice j) := by
  unfold jumpOne
  cases hm : lookupA s.mice mid with
  | none => exact ⟨s, rfl, hs, fun j hj => rfl⟩
  | some m =>
    dsimp only
    have hmo : mouseOKb s.board m = true := hs.2.1 (mid, m) (lookupA_mem s.mice mid m hm)
    have hstm : m.status = MStatus.inPlay := hst m hm
    have hmo2 : baseB m.onBase = true ∧ cellGearB s.board m.pos = true := by
      unfold mouseOKb at hmo
      rw [hstm] at hmo
      dsimp only at hmo
      rw [Bool.and_eq_true] at hmo
      exact hmo
    cases hp : m.pos with
    | out => exact ⟨s, rfl, hs, fun j hj => rfl⟩
    | cell x y =>
      dsimp only
      have hcg : cellGearB s.board (MPos.cell x y) = true := hp ▸ hmo2.2
      cases hb : lookupA s.board (x, y) with
      | none => exact ⟨s, rfl, hs, fun j hj => rfl⟩
      | some c =>
        simp only [cellGearB] at hcg
        rw [hb] at hcg
        cases c with
        | obstacle => exact absurd hcg (by simp)
        | empty t => exact absurd hcg (by simp)
        | gear g =>
          dsimp only
          cases hob : m.onBase with
          | none =>
            have := hmo2.1
            rw [hob] at this
            exact absurd this (by simp [baseB])
          | some b =>
            dsimp only
            have hb4 : b < 4 := by
              have := hmo2.1
              rw [hob] at this
              simpa [baseB] using this
            have hglen : g.bases.length = 4 := by
              have := hs.1 ((x, y), Cell.gear g) (lookupA_mem s.board (x, y) _ hb)
              simpa [gearOKb] using this
            have hblen : b < g.bases.length := by omega
            cases hstep : getCellFromCoords s
                ((x : Int) + (directionDeltas (calcVectorSum g.rot b)).1)
                ((y : Int) + (directionDeltas (calcVectorSum g.rot b)).2) with
            | none => exact ⟨s, rfl, hs, fun j hj => rfl⟩
            | some t =>
              obtain ⟨tx, ty⟩ := t
              dsimp only
              by_cases hty : s.height < ty
              · rw [if_pos hty]
                by_cases hpt : calcVectorSum g.rot b = 0
                · rw [if_pos hpt, if_pos hblen]
                  refine ⟨_, rfl, ⟨?_, ?_, ?_⟩, ?_⟩
                  · exact gearsOKb_update s.board (x, y) _ hs.1 (by
                      simpa [List.length_set] using hglen)
                  · exact miceOKb_update_mouse _ s.mice mid _
                      (miceOKb_update_board s.board (x, y) _ s.mice hs.2.1) (by rfl)
                  · show ((updateA s.mice mid _).map Prod.fst).Nodup
                    rw [map_fst_updateA]
                    exact hs.2.2
                  · exact fun j hj => lookupA_updateA_ne s.mice mid j _ (Ne.symm hj)
                · rw [if_neg hpt]
                  exact ⟨s, rfl, hs, fun j hj => rfl⟩
              · rw [if_neg hty]
                cases htg : lookupA s.board (tx, ty) with
                | none => exact ⟨s, rfl, hs, fun j hj => rfl⟩
                | some c2 =>
                  cases c2 with
                  | obstacle => exact ⟨s, rfl, hs, fun j hj => rfl⟩
                  | empty t2 => exact ⟨s, rfl, hs, fun j hj => rfl⟩
                  | gear tg =>
                    dsimp only
                    cases hf : findAdmit tg.rot ((calcVectorSum g.rot b + 2) % 4) tg.bases
                        (gearBases tg.gtype) with
                    | none => exact ⟨s, rfl, hs, fun j hj => rfl⟩
                    | some tb =>
                      dsimp only
                      rw [if_pos hblen]
                      have htb4 : tb < 4 :=
                        gearBases_lt_four tg.gtype tb (findAdmit_mem _ _ _ _ tb hf)
                      have htglen : tg.bases.length = 4 := by
                        have := hs.1 ((tx, ty), Cell.gear tg)
                          (lookupA_mem s.board (tx, ty) _ htg)
                        simpa [gearOKb] using this
                      have hg1 : ∀ p ∈ updateA s.board (x, y)
                          (Cell.gear { g with bases := g.bases.set b 0 }),
                          gearOKb p.2 = true :=
                        gearsOKb_update s.board (x, y) _ hs.1 (by
                          simpa [List.length_set] using hglen)
                      cases hlt : lookupA (updateA s.board (x, y)
                          (Cell.gear { g with bases := g.bases.set b 0 })) (tx, ty) with
                      | none =>
                        refine ⟨_, rfl, ⟨?_, ?_, ?_⟩, ?_⟩
                        · exact gearsOKb_update _ (tx, ty) _ hg1 (by
                            simpa [List.length_set] using htglen)
                        · refine miceOKb_update_mouse _ s.mice mid _
                            (miceOKb_update_board _ (tx, ty) _ s.mice
                              (miceOKb_update_board s.board (x, y) _ s.mice hs.2.1)) ?_
                          unfold mouseOKb
                          rw [hstm]
                          dsimp only
                          rw [Bool.and_eq_true]
                          refine ⟨by simpa [baseB] using htb4, ?_⟩
                          simp only [cellGearB]
                          rw [updateA_not_mem _ _ _ hlt, hlt]
                        · show ((updateA s.mice mid _).map Prod.fst).Nodup
                          rw [map_fst_updateA]
                          exact hs.2.2
                        · exact fun j hj => lookupA_updateA_ne s.mice mid j _ (Ne.symm hj)
                      | some c3 =>
                        have hc3len : gearOKb c3 = true :=
                          hg1 ((tx, ty), c3) (lookupA_mem _ (tx, ty) c3 hlt)
                        cases c3 with
                        | obstacle =>
                          refine ⟨_, rfl, ⟨?_, ?_, ?_⟩, ?_⟩
                          · exact gearsOKb_update _ (tx, ty) _ hg1 (by
                              simpa [List.length_set] using htglen)
                          · refine miceOKb_update_mouse _ s.mice mid _
                              (miceOKb_update_board _ (tx, ty) _ s.mice
                                (miceOKb_update_board s.board (x, y) _ s.mice hs.2.1)) ?_
                            unfold mouseOKb
                            rw [hstm]
                            dsimp only
                            rw [Bool.and_eq_true]
                            refine ⟨by simpa [baseB] using htb4, ?_⟩
                            simp only [cellGearB]
                            rw [lookupA_updateA_isSome _ (tx, ty) _ (by rw [hlt]; rfl)]
                          · show ((updateA s.mice mid _).map Prod.fst).Nodup
                            rw [map_fst_updateA]
                            exact hs.2.2
                          · exact fun j hj => lookupA_updateA_ne s.mice mid j _ (Ne.symm hj)
                        | empty t3 =>
                          refine ⟨_, rfl, ⟨?_, ?_, ?_⟩, ?_⟩
                          · exact gearsOKb_update _ (tx, ty) _ hg1 (by
                              simpa [List.length_set] using htglen)
                          · refine miceOKb_update_mouse _ s.mice mid _
                              (miceOKb_update_board _ (tx, ty) _ s.mice
                                (miceOKb_update_board s.board (x, y) _ s.mice hs.2.1)) ?_
                            unfold mouseOKb
                            rw [hstm]
                            dsimp only
                            rw [Bool.and_eq_true]
                            refine ⟨by simpa [baseB] using htb4, ?_⟩
                            simp only [cellGearB]
                            rw [lookupA_updateA_isSome _ (tx, ty) _ (by rw [hlt]; rfl)]
                          · show ((updateA s.mice mid _).map Prod.fst).Nodup
                            rw [map_fst_updateA]
                            exact hs.2.2
                          · exact fun j hj => lookupA_updateA_ne s.mice mid j _ (Ne.symm hj)
                        | gear h3 =>
                          refine ⟨_, rfl, ⟨?_, ?_, ?_⟩, ?_⟩
                          · exact gearsOKb_update _ (tx, ty) _ hg1 (by
                              simp only [gearOKb, decide_eq_true_eq] at hc3len
                              simpa [List.length_set] using hc3len)
                          · refine miceOKb_update_mouse _ s.mice mid _
                              (miceOKb_update_board _ (tx, ty) _ s.mice
                                (miceOKb_update_board s.board (x, y) _ s.mice hs.2.1)) ?_
                            unfold mouseOKb
                            rw [hstm]
                            dsimp only
                            rw [Bool.and_eq_true]
                            refine ⟨by simpa [baseB] using htb4, ?_⟩
                            simp only [cellGearB]
                            rw [lookupA_updateA_isSome _ (tx, ty) _ (by rw [hlt]; rfl)]
                          · show ((updateA s.mice mid _).map Prod.fst).Nodup
                            rw [map_fst_updateA]
                            exact hs.2.2
                          · exact fun j hj => lookupA_updateA_ne s.mice mid j _ (Ne.symm hj)

/-- With unique keys, membership determines the lookup. -/
theorem lookupA_of_mem_nodup {α β : Type} [DecidableEq α] (l : List (α × β))
    (hn : (l.map Prod.fst).Nodup) (k : α) (v : β) (h : (k, v) ∈ l) :
    lookupA l k = some v := by
  induction l with
  | nil => exact absurd h (List.not_mem_nil _)
  | cons hd t ih =>
    rcases List.mem_cons.mp h with h1 | h1
    · rw [← h1]
      simp [lookupA]
    · have hk : hd.1 ≠ k := by
        intro he
        have : k ∈ t.map Prod.fst := List.mem_map.mpr ⟨(k, v), h1, rfl⟩
        rw [List.map_cons] at hn
        rw [he] at hn
        exact (List.nodup_cons.mp hn).1 this
      simp only [lookupA, hk, if_false]
      exact ih (List.nodup_cons.mp (by rw [List.map_cons] at hn; exact hn)).2 h1

/-- The jump pass over a duplicate-free list of in-play mouse ids never
raises and preserves well-formedness. -/
theorem foldJumps_wf : ∀ l : List Nat, l.Nodup →
    ∀ s : GameState, WF s →
    (∀ mid ∈ l, ∀ m, lookupA s.mice mid = some m → m.status = MStatus.inPlay) →
    ∃ s', foldExcept jumpOne s l = Except.ok s' ∧ WF s' := by
  intro l
  induction l with
  | nil => exact fun _ s hs _ => ⟨s, rfl, hs⟩
  | cons mid t ih =>
    intro hnd s hs hstat
    rcases jumpOne_wf s mid hs (hstat mid (List.mem_cons_self mid t)) with ⟨s1, h1, hw1, hpre⟩
    have hstat1 : ∀ mid' ∈ t, ∀ m, lookupA s1.mice mid' = some m →
        m.status = MStatus.inPlay := by
      intro mid' hmem m hlk
      have hne : mid' ≠ mid := by
        intro he
        rw [he] at hmem
        exact (List.nodup_cons.mp hnd).1 hmem
      rw [hpre mid' hne] at hlk
      exact hstat mid' (List.mem_cons_of_mem mid hmem) m hlk
    rcases ih (List.nodup_cons.mp hnd).2 s1 hw1 hstat1 with ⟨s2, h2, hw2⟩
    refine ⟨s2, ?_, hw2⟩
    unfold foldExcept
    rw [h1]
    exact h2

/-- On a well-formed state the jump pass never raises and preserves
well-formedness. -/
theorem checkJumps_wf (s : GameState) (hs : WF s) :
    ∃ s', checkJumps s = Except.ok s' ∧ WF s' := by
  unfold checkJumps
  apply foldJumps_wf
  · exact hs.2.2.sublist ((List.filter_sublist s.mice).map Prod.fst)
  · exact hs
  · intro mid hmem m hlk
    rcases List.mem_map.mp hmem with ⟨p, hpf, hpe⟩
    have hpm := List.mem_filter.mp hpf
    have hlp : lookupA s.mice p.1 = some p.2 :=
      lookupA_of_mem_nodup s.mice hs.2.2 p.1 p.2 hpm.1
    rw [← hpe, hlp] at hlk
    injection hlk with he
    rw [← he]
    exact of_decide_eq_true hpm.2

/-- A well-formed pre-move naming an on-board cell never raises and
preserves well-formedness. -/
theorem preMoveStep_wf_ok (s : GameState) (pm : List Char) (pds : List Nat) (pb : Nat)
    (c : Cell) (hpm : matchPreMove pm = some (pds, pb)) (hpb : pb ≤ 3)
    (hc : boardLookupDigits s pds = some c) (hs : WF s) :
    ∃ s1, preMoveStep s pm = Except.ok s1 ∧ WF s1 := by
  unfold preMoveStep
  rw [hpm]
  dsimp only
  rw [if_neg (by omega : ¬ 3 < pb)]
  match pds, hc with
  | [], hc => exact absurd hc (by simp [boardLookupDigits])
  | [px], hc => exact absurd hc (by simp [boardLookupDigits])
  | px :: py :: q :: rest, hc => exact absurd hc (by simp [boardLookupDigits])
  | [px, py], hc =>
    dsimp only
    simp only [boardLookupDigits] at hc
    rw [hc]
    cases c with
    | obstacle => exact ⟨s, rfl, hs⟩
    | empty t => exact ⟨s, rfl, hs⟩
    | gear pg =>
      refine ⟨_, rfl, ?_, ?_, hs.2.2⟩
      · refine gearsOKb_update s.board (px, py) _ hs.1 ?_
        have := hs.1 ((px, py), Cell.gear pg) (lookupA_mem s.board (px, py) _ hc)
        simpa [gearOKb] using this
      · exact miceOKb_update_board s.board (px, py) _ s.mice hs.2.1

/-- A Rotation-Phase move naming a gear cell, with a well-formed optional
pre-move, never raises inside the phase branch and preserves
well-formedness. -/
theorem rotationMove_wf_ok (s : GameState) (pre : Option (List Char)) (main : List Char)
    (x y : Nat) (r : RotStr) (g : GearData)
    (hmain : matchRotMain main = some ([x, y], r))
    (hg : lookupA s.board (x, y) = some (Cell.gear g))
    (hpre : pre = none ∨ ∃ pm pds pb c, pre = some pm ∧ matchPreMove pm = some (pds, pb) ∧
      pb ≤ 3 ∧ boardLookupDigits s pds = some c)
    (hs : WF s) :
    ∃ s1, rotationMove s pre main = Except.ok s1 ∧ WF s1 := by
  unfold rotationMove
  rw [hmain]
  dsimp only
  rw [hg]
  dsimp only
  rcases hpre with hnone | ⟨pm, pds, pb, c, hpk, hpm, hpb, hc⟩
  · subst hnone
    exact ⟨_, rfl, WF_applyRotation s (x, y) r hs⟩
  · subst hpk
    rcases preMoveStep_wf_ok s pm pds pb c hpm hpb hc hs with ⟨s1, h1, hw1⟩
    dsimp only
    rw [h1]
    exact ⟨_, rfl, WF_applyRotation s1 (x, y) r hw1⟩

/-- On a well-formed Rotation-Phase state the post-phase pipeline never
raises. -/
theorem afterPhase_false_wf_ok (er : EntropyRand) (s1 : GameState) (hw : WF s1) :
    ∃ p, afterPhase false er s1 = Except.ok p := by
  unfold afterPhase
  rw [if_neg (by simp : ¬((false : Bool) = true ∧ invSum s1 = 0 ∧
    s1.entropyTriggered = false))]
  dsimp only
  rcases checkEntries_wf s1 hw with ⟨s2, h2, hw2⟩
  rcases checkJumps_wf s2 hw2 with ⟨s3, h3, hw3⟩
  refine ⟨(s3, ""), ?_⟩
  rw [h2]
  simp only [bind, Except.bind]
  rw [h3]

/-- C4 counterexample: in the Rotation-Phase state `exRot` the command
`"P21+90"` — exactly the claim's main-move grammar, naming the gear cell
`P21` — fails as a format error, while the same move written with the
source's `G@` prefix succeeds. -/
theorem C4_counterexample :
    (processMove exRot "P21+90" er0).success = false ∧
      (processMove exRot "P21+90" er0).msg = "FAILED MOVE (Turn lost): Invalid Format Phase 2" ∧
      (processMove exRot "G@P21+90" er0).success = true := by
  exact ⟨by rfl, by rfl, by rfl⟩

/-- C4 (corrected): Rotation-Phase grammar.  The accepted main move is
`G@P<x><y><+90|-90>` (a start-anchored match, so trailing characters are
tolerated and the cell id may have several digits), optionally prefixed by
a pre-move `G@P<x><y>:b=<0-3>` and a semicolon — not the claim's bare
`P<x><y><+90|-90>`.  On a live well-formed Rotation-Phase session, every
such command whose main cell holds a gear (and whose pre-move, if any,
names an on-board cell) succeeds, and any main move not matching the
pattern fails as a format error. -/
theorem C4_rotation_grammar (s : GameState) (cmd : String) (er : EntropyRand)
    (hov : s.isGameOver = false) (hph : invSum s = 0) :
    (matchRotMain (stripWs ((splitSemis cmd.toList).getLastD [])) = none →
      (processMove s cmd er).success = false ∧
      (processMove s cmd er).msg = "FAILED MOVE (Turn lost): Invalid Format Phase 2") ∧
    (∀ x y r g, WF s →
      matchRotMain (stripWs ((splitSemis cmd.toList).getLastD [])) = some ([x, y], r) →
      lookupA s.board (x, y) = some (Cell.gear g) →
      ((splitSemis cmd.toList).length ≤ 1 ∨
        ∃ pds pb c, matchPreMove (stripWs ((splitSemis cmd.toList).headD [])) = some (pds, pb) ∧
          pb ≤ 3 ∧ boardLookupDigits s pds = some c) →
      (processMove s cmd er).success = true) := by
  have hplc : (decide (0 < invSum s)) = false := by simp [hph]
  constructor
  · intro hmain
    have hrot : rotationMove s
        (if 1 < (splitSemis cmd.toList).length then
          some (stripWs ((splitSemis cmd.toList).headD [])) else none)
        (stripWs ((splitSemis cmd.toList).getLastD [])) =
        Except.error "Invalid Format Phase 2" := by
      unfold rotationMove
      rw [hmain]
    have htry : tryMove s (decide (0 < invSum s))
        (if 1 < (splitSemis cmd.toList).length then
          some (stripWs ((splitSemis cmd.toList).headD [])) else none)
        (stripWs ((splitSemis cmd.toList).getLastD [])) er =
        Except.error "Invalid Format Phase 2" := by
      rw [hplc, tryMove_rotation, hrot]
      rfl
    rw [processMove_eq_error s cmd er _ hov htry]
    exact ⟨rfl, rfl⟩
  · intro x y r g hwf hmain hg hpre
    have hpreOk : (if 1 < (splitSemis cmd.toList).length then
          some (stripWs ((splitSemis cmd.toList).headD [])) else none) = none ∨
        ∃ pm pds pb c, (if 1 < (splitSemis cmd.toList).length then
            some (stripWs ((splitSemis cmd.toList).headD [])) else none) = some pm ∧
          matchPreMove pm = some (pds, pb) ∧ pb ≤ 3 ∧ boardLookupDigits s pds = some c := by
      by_cases hlen : 1 < (splitSemis cmd.toList).length
      · rcases hpre with hle | ⟨pds, pb, c, hpm, hpb, hc⟩
        · omega
        · exact Or.inr ⟨_, pds, pb, c, by rw [if_pos hlen], hpm, hpb, hc⟩
      · exact Or.inl (by rw [if_neg hlen])
    rcases rotationMove_wf_ok s _ _ x y r g hmain hg hpreOk hwf with ⟨s1, h1, hw1⟩
    rcases afterPhase_false_wf_ok er s1 hw1 with ⟨p, hp⟩
    have htry : tryMove s (decide (0 < invSum s))
        (if 1 < (splitSemis cmd.toList).length then
          some (stripWs ((splitSemis cmd.toList).headD [])) else none)
        (stripWs ((splitSemis cmd.toList).getLastD [])) er = Except.ok p := by
      rw [hplc]
      unfold tryMove
      rw [if_neg (by simp : ¬ (false : Bool) = true), h1]
      simp only [bind, Except.bind]
      exact hp
    rw [processMove_eq_ok s cmd er p hov htry]

/-- C4 witness: the grammar theorem evaluated on `exRot`: the claim-shaped
`"P21+90"` is rejected as a format error; the source-shaped `"G@P21+90"`
succeeds. -/
theorem C4_rotation_grammar_witness :
    ((processMove exRot "P21+90" er0).success = false ∧
      (processMove exRot "P21+90" er0).msg =
        "FAILED MOVE (Turn lost): Invalid Format Phase 2") ∧
    (processMove exRot "G@P21+90" er0).success = true := by
  have h1 := (C4_rotation_grammar exRot "P21+90" er0 (by rfl) (by rfl)).1 (by rfl)
  have h2 := (C4_rotation_grammar exRot "G@P21+90" er0 (by rfl) (by rfl)).2 2 1
    RotStr.plus90 ⟨2, (2, 1), Topo.L, 0, [0, 2, 0, 2]⟩ (by unfold WF; decide) (by rfl)
    (by rfl) (Or.inl (by decide))
  exact ⟨h1, h2⟩

end CapsBench
